import Mathlib

/-!
# DPDebateForum: the client-side topic store

A shallow embedding of `github-pages-app-js.js`: the module-level state
(`debateTopics`, `currentFilter`, `localStorage`), the persistence pair
`loadTopics` / `saveTopics`, the two mutation operations `createTopic` /
`createReply`, their form handlers `submitNewTopic` / `submitReply`, the
filter step of `renderTopics`, and the initialiser of `userId`.

Conventions of the embedding.

* Records are typed: a topic carries `id, title, content, author, category,
  date, replies` and a reply `id, author, content, date`, the property order
  the object literals of the source produce.  Numbers are naturals.
* The two clock reads of a mutation (`Date.now()` and
  `new Date().toISOString()`) are arguments of the operation.
* `localStorage` is a key/value list with a quota; `setItem` throws when the
  contents would exceed the quota.
* `JSON.stringify` / `JSON.parse` are modelled on the record shape above:
  `stringify` produces the text ECMAScript prescribes, `parse` reads that
  canonical text back and reports anything else as malformed.
* DOM effects (`showElement`, the element construction of `renderTopics`,
  `alert`) neither throw nor touch the state and are represented only by the
  outcome a handler reports.  The wait on `setTimeout` is not a state change;
  calls run to completion one after the other.
-/

namespace DPDebate

/-! ## Data model -/

/-- A reply as stored: `{ id, author, content, date }`. -/
structure Reply where
  id : Nat
  author : String
  content : String
  date : String
  deriving DecidableEq, Repr

/-- A topic as stored: `{ id, title, content, author, category, date, replies }`. -/
structure Topic where
  id : Nat
  title : String
  content : String
  author : String
  category : String
  date : String
  replies : List Reply
  deriving DecidableEq, Repr

/-- The object `submitNewTopic` hands to `createTopic`:
`{ title, content, author, category }`. -/
structure TopicData where
  title : String
  content : String
  author : String
  category : String
  deriving DecidableEq, Repr

/-- The object `submitReply` hands to `createReply`: `{ author, content }`. -/
structure ReplyData where
  author : String
  content : String
  deriving DecidableEq, Repr

/-! ## `localStorage` -/

/-- The exception `setItem` raises. -/
inductive DOMException where
  | QuotaExceededError
  deriving DecidableEq, Repr

/-- The exception `JSON.parse` raises. -/
inductive LoadError where
  | SyntaxError
  deriving DecidableEq, Repr

deriving instance DecidableEq for Except

/-- The browser storage area: its key/value pairs and the quota the browser
grants it (counted in characters of keys and values). -/
structure LocalStorage where
  items : List (String × String)
  quota : Nat
  deriving DecidableEq, Repr

def LOCAL_STORAGE_KEY : String := "dpd_user_id"

def TOPICS_STORAGE_KEY : String := "dpd_topics"

/-- Characters held by a list of entries. -/
def usage : List (String × String) → Nat
  | [] => 0
  | kv :: rest => kv.1.length + kv.2.length + usage rest

/-- `localStorage.getItem(key)`: the stored value, `none` for `null`. -/
def getItem (ls : LocalStorage) (key : String) : Option String :=
  match ls.items.find? (fun kv => kv.1 == key) with
  | some kv => some kv.2
  | none => none

/-- `localStorage.setItem(key, value)`: replaces the entry of `key`; throws
`QuotaExceededError`, leaving the area as it was, when the new contents do
not fit the quota. -/
def setItem (ls : LocalStorage) (key value : String) : Except DOMException LocalStorage :=
  let items := (key, value) :: ls.items.filter (fun kv => !(kv.1 == key))
  if usage items ≤ ls.quota then
    .ok { ls with items := items }
  else
    .error .QuotaExceededError

/-! ## Filter step of `renderTopics` -/

/-- The `filteredTopics` of `renderTopics`, the projection of the collection:
`currentFilter === 'all' ? debateTopics
  : debateTopics.filter(topic => topic.category === currentFilter)`. -/
def filteredTopics (debateTopics : List Topic) (currentFilter : String) : List Topic :=
  if currentFilter = "all" then
    debateTopics
  else
    debateTopics.filter (fun topic => topic.category == currentFilter)

/-- What `renderTopics` puts into `topics-list`: the placeholder paragraph
when the filtered list is empty, else one element per filtered topic. -/
inductive Rendered where
  | noTopicsPlaceholder
  | topicElements (topics : List Topic)
  deriving DecidableEq, Repr

def renderTopics (debateTopics : List Topic) (currentFilter : String) : Rendered :=
  let shown := filteredTopics debateTopics currentFilter
  if shown.length = 0 then
    .noTopicsPlaceholder
  else
    .topicElements shown

/-! ## JSON text -/

/-- Lower-case hexadecimal digit of a value below 16. -/
def hexDigit (n : Nat) : Char :=
  if n < 10 then Char.ofNat (48 + n) else Char.ofNat (87 + n)

/-- Value of a hexadecimal digit, either case. -/
def hexValue (c : Char) : Option Nat :=
  if 48 ≤ c.toNat ∧ c.toNat ≤ 57 then some (c.toNat - 48)
  else if 97 ≤ c.toNat ∧ c.toNat ≤ 102 then some (c.toNat - 87)
  else if 65 ≤ c.toNat ∧ c.toNat ≤ 70 then some (c.toNat - 55)
  else none

/-- One character of `QuoteJSONString`: the two-character escapes, `\u00xx`
for the other control characters, the character itself otherwise. -/
def escapeChar (c : Char) : List Char :=
  if c = '\x22' then ['\x5c', '\x22']
  else if c = '\x5c' then ['\x5c', '\x5c']
  else if c = '\x08' then ['\x5c', 'b']
  else if c = '\x0c' then ['\x5c', 'f']
  else if c = '\x0a' then ['\x5c', 'n']
  else if c = '\x0d' then ['\x5c', 'r']
  else if c = '\x09' then ['\x5c', 't']
  else if c.toNat < 32 then
    ['\x5c', 'u', '0', '0', hexDigit (c.toNat / 16), hexDigit (c.toNat % 16)]
  else [c]

def escapeChars : List Char → List Char
  | [] => []
  | c :: cs => escapeChar c ++ escapeChars cs

/-- `QuoteJSONString`. -/
def quoteJSONString (s : String) : List Char :=
  '\x22' :: (escapeChars s.data ++ ['\x22'])

/-- The character a two-character escape stands for. -/
def unescapeChar (e : Char) : Option Char :=
  if e = '\x22' then some '\x22'
  else if e = '\x5c' then some '\x5c'
  else if e = '/' then some '/'
  else if e = 'b' then some '\x08'
  else if e = 'f' then some '\x0c'
  else if e = 'n' then some '\x0a'
  else if e = 'r' then some '\x0d'
  else if e = 't' then some '\x09'
  else none

def consChar (c : Char) (r : Option (List Char × List Char)) : Option (List Char × List Char) :=
  match r with
  | some (cs, rest) => some (c :: cs, rest)
  | none => none

def hex4 (a b c d : Char) : Option Nat :=
  match hexValue a, hexValue b, hexValue c, hexValue d with
  | some x, some y, some z, some w => some (((x * 16 + y) * 16 + z) * 16 + w)
  | _, _, _, _ => none

/-- The characters of a JSON string after its opening quote, up to and
including the closing quote; the decoded characters and the remaining text. -/
def parseStringBody : List Char → Option (List Char × List Char)
  | [] => none
  | c :: rest =>
    if c = '\x22' then some ([], rest)
    else if c = '\x5c' then
      match rest with
      | [] => none
      | e :: rest2 =>
        if e = 'u' then
          match rest2 with
          | a :: b :: c3 :: d :: rest3 =>
            match hex4 a b c3 d with
            | some n => consChar (Char.ofNat n) (parseStringBody rest3)
            | none => none
          | _ => none
        else
          match unescapeChar e with
          | some ch => consChar ch (parseStringBody rest2)
          | none => none
    else if c.toNat < 32 then none
    else consChar c (parseStringBody rest)

/-- A JSON string at the head of the text. -/
def parseString : List Char → Option (String × List Char)
  | [] => none
  | c :: rest =>
    if c = '\x22' then
      match parseStringBody rest with
      | some (cs, rest2) => some (String.mk cs, rest2)
      | none => none
    else none

/-- Decimal digits of `n`, most significant first, in front of `acc`. -/
def natDigits : Nat → Nat → List Char → List Char
  | 0, _, acc => acc
  | fuel + 1, n, acc =>
    let acc2 := Char.ofNat (48 + n % 10) :: acc
    if n / 10 = 0 then acc2 else natDigits fuel (n / 10) acc2

/-- `Number::toString` of a non-negative integer. -/
def renderNat (n : Nat) : List Char := natDigits (n + 1) n []

def isDigit (c : Char) : Bool := decide (48 ≤ c.toNat) && decide (c.toNat ≤ 57)

def digitsValue (ds : List Char) : Nat :=
  ds.foldl (fun a c => a * 10 + (c.toNat - 48)) 0

/-- A non-negative integer literal at the head of the text. -/
def parseNat (input : List Char) : Option (Nat × List Char) :=
  let ds := input.takeWhile isDigit
  if ds.isEmpty then none else some (digitsValue ds, input.dropWhile isDigit)

/-- Strips the literal `lit` from the head of the text. -/
def expect : List Char → List Char → Option (List Char)
  | [], input => some input
  | _ :: _, [] => none
  | l :: ls, c :: cs => if l = c then expect ls cs else none

def renderReply (r : Reply) : List Char :=
  "\x7b\"id\":".data ++ renderNat r.id
    ++ ",\"author\":".data ++ quoteJSONString r.author
    ++ ",\"content\":".data ++ quoteJSONString r.content
    ++ ",\"date\":".data ++ quoteJSONString r.date
    ++ "\x7d".data

/-- The elements of an array after the first, each behind its comma. -/
def renderTail {α : Type} (render : α → List Char) : List α → List Char
  | [] => []
  | x :: xs => ',' :: (render x ++ renderTail render xs)

def renderArray {α : Type} (render : α → List Char) : List α → List Char
  | [] => ['[', ']']
  | x :: xs => '[' :: (render x ++ renderTail render xs ++ [']'])

def renderTopic (t : Topic) : List Char :=
  "\x7b\"id\":".data ++ renderNat t.id
    ++ ",\"title\":".data ++ quoteJSONString t.title
    ++ ",\"content\":".data ++ quoteJSONString t.content
    ++ ",\"author\":".data ++ quoteJSONString t.author
    ++ ",\"category\":".data ++ quoteJSONString t.category
    ++ ",\"date\":".data ++ quoteJSONString t.date
    ++ ",\"replies\":".data ++ renderArray renderReply t.replies
    ++ "\x7d".data

/-- `JSON.stringify(topics)`. -/
def stringify (topics : List Topic) : String :=
  String.mk (renderArray renderTopic topics)

/-- The literal `key` followed by what `p` reads. -/
def keyed {α : Type} (key : List Char) (p : List Char → Option (α × List Char))
    (input : List Char) : Option (α × List Char) :=
  (expect key input).bind p

def parseReply (input : List Char) : Option (Reply × List Char) :=
  (keyed "\x7b\"id\":".data parseNat input).bind fun id =>
  (keyed ",\"author\":".data parseString id.2).bind fun author =>
  (keyed ",\"content\":".data parseString author.2).bind fun content =>
  (keyed ",\"date\":".data parseString content.2).bind fun date =>
  (expect "\x7d".data date.2).bind fun rest =>
  some ({ id := id.1, author := author.1, content := content.1, date := date.1 }, rest)

/-- The rest of an array: `]`, or a comma, an element and the rest. -/
def parseTail {α : Type} (p : List Char → Option (α × List Char)) :
    Nat → List Char → Option (List α × List Char)
  | 0, _ => none
  | _ + 1, [] => none
  | fuel + 1, c :: rest =>
    if c = ']' then some ([], rest)
    else if c = ',' then
      match p rest with
      | some (x, r) =>
        match parseTail p fuel r with
        | some (xs, r2) => some (x :: xs, r2)
        | none => none
      | none => none
    else none

def parseArray {α : Type} (p : List Char → Option (α × List Char)) (fuel : Nat) :
    List Char → Option (List α × List Char)
  | [] => none
  | c :: rest =>
    if c = '[' then
      match rest with
      | [] => none
      | c2 :: rest2 =>
        if c2 = ']' then some ([], rest2)
        else
          match p rest with
          | some (x, r) =>
            match parseTail p fuel r with
            | some (xs, r2) => some (x :: xs, r2)
            | none => none
          | none => none
    else none

def parseTopic (fuel : Nat) (input : List Char) : Option (Topic × List Char) :=
  (keyed "\x7b\"id\":".data parseNat input).bind fun id =>
  (keyed ",\"title\":".data parseString id.2).bind fun title =>
  (keyed ",\"content\":".data parseString title.2).bind fun content =>
  (keyed ",\"author\":".data parseString content.2).bind fun author =>
  (keyed ",\"category\":".data parseString author.2).bind fun category =>
  (keyed ",\"date\":".data parseString category.2).bind fun date =>
  (keyed ",\"replies\":".data (parseArray parseReply fuel) date.2).bind fun replies =>
  (expect "\x7d".data replies.2).bind fun rest =>
  some ({ id := id.1, title := title.1, content := content.1, author := author.1,
          category := category.1, date := date.1, replies := replies.1 }, rest)

/-- `JSON.parse(text)` on the stored topics text: the collection, or `none`
(a `SyntaxError`) when the text is not the text `stringify` gives a topic
collection (no insignificant white space, properties in the order of the
records). -/
def parse (text : String) : Option (List Topic) :=
  match parseArray (parseTopic text.length) text.length text.data with
  | some (topics, []) => some topics
  | _ => none


/-! ## Persistence: `loadTopics`, `saveTopics` -/

/-- The sample data of `getSampleTopics`. -/
def getSampleTopics : List Topic :=
  [ { id := 1
      title := "Should Social Media Be Regulated Like Public Utilities?"
      content := "As social media platforms continue to dominate our communication landscape, should they be regulated like public utilities? These platforms now serve essential communication functions in society, but they're run by private companies with profit motives. Does this create conflicts of interest that harm the public good?"
      author := "Moderator"
      category := "politics"
      date := "2025-04-28T12:00:00Z"
      replies :=
        [ { id := 101
            author := "DebateEnthusiast"
            content := "I believe regulation is necessary. These platforms have become too central to public discourse to remain unregulated. When a private company controls what is essentially the modern public square, there needs to be oversight."
            date := "2025-04-29T09:15:00Z" },
          { id := 102
            author := "FreeMarket42"
            content := "Disagree strongly. Government regulation would stifle innovation and potentially lead to censorship issues. The market will correct problems if users demand better practices."
            date := "2025-04-30T14:22:00Z" } ] },
    { id := 2
      title := "Is AI Art Really Art?"
      content := "With the rise of AI-generated images, music, and writing, we need to reconsider what constitutes 'art.' Does art require human intention, emotion, and experience? Or can something created by an algorithm based on patterns from human art still be considered legitimate art?"
      author := "ArtPhilosopher"
      category := "society"
      date := "2025-05-01T08:30:00Z"
      replies :=
        [ { id := 201
            author := "TraditionalistView"
            content := "Art is fundamentally human expression. While AI can create interesting images, they lack the lived experience and emotional intent that gives art its depth and meaning."
            date := "2025-05-01T10:45:00Z" } ] },
    { id := 3
      title := "Should High School Education Focus More on Practical Skills?"
      content := "Many students graduate high school without basic financial literacy, home economics skills, or career preparation. Should schools reduce focus on traditional academic subjects to make room for more practical life skills?"
      author := "EducationReformer"
      category := "education"
      date := "2025-05-02T15:20:00Z"
      replies := [] } ]

/-- The function `loadTopics`: the stored text parsed when `getItem` gives a
truthy value (a non-empty string), the sample data otherwise; `JSON.parse`
may throw. -/
def loadTopics (ls : LocalStorage) : Except LoadError (List Topic) :=
  match getItem ls TOPICS_STORAGE_KEY with
  | some storedTopics =>
    if storedTopics ≠ "" then
      match parse storedTopics with
      | some topics => .ok topics
      | none => .error .SyntaxError
    else
      .ok getSampleTopics
  | none => .ok getSampleTopics

/-- The function `saveTopics`:
`localStorage.setItem(TOPICS_STORAGE_KEY, JSON.stringify(topics))`. -/
def saveTopics (ls : LocalStorage) (topics : List Topic) : Except DOMException LocalStorage :=
  setItem ls TOPICS_STORAGE_KEY (stringify topics)

/-! ## Module state and the mutation operations -/

/-- The module-level state: `debateTopics`, `currentFilter`, and the
browser storage area. -/
structure AppState where
  debateTopics : List Topic
  currentFilter : String
  localStorage : LocalStorage
  deriving DecidableEq, Repr

/-- The body of `fetchTopics` after its delay: `debateTopics = loadTopics()`;
when `loadTopics` throws the `catch` leaves `debateTopics` as it was. -/
def fetchTopics (s : AppState) : AppState :=
  match loadTopics s.localStorage with
  | .ok topics => { s with debateTopics := topics }
  | .error _ => s

/-- The clock when a promise made by `setTimeout(resolve, delay)` at time
`start` resumes: the timer fires no earlier than `delay` ms after `start`. -/
def afterTimeout (start delay lateness : Nat) : Nat := start + delay + lateness

/-- The function `createTopic`.  `now` is what `Date.now()` returns after the
500 ms wait and `iso` what `new Date().toISOString()` returns.  The new topic
is put in front of `debateTopics`, then `saveTopics` runs; when it throws,
the `catch` returns `false` (with `debateTopics` as `unshift` left it).  The
DOM steps after the write (`showElement`, `renderTopics`), which stand in the
same `try`, are taken to complete: the page has its elements and the records
are well typed. -/
def createTopic (s : AppState) (topicData : TopicData) (now : Nat) (iso : String) :
    Bool × AppState :=
  let newTopic : Topic :=
    { id := now
      title := topicData.title
      content := topicData.content
      author := topicData.author
      category := topicData.category
      date := iso
      replies := [] }
  let debateTopics := newTopic :: s.debateTopics
  match saveTopics s.localStorage debateTopics with
  | .ok ls => (true, { s with debateTopics := debateTopics, localStorage := ls })
  | .error _ => (false, { s with debateTopics := debateTopics })

/-- `Array.prototype.findIndex`: the first index whose element satisfies
`p`, `none` for `-1`. -/
def findIndex {α : Type} (p : α → Bool) : List α → Option Nat
  | [] => none
  | x :: xs =>
    if p x then some 0
    else
      match findIndex p xs with
      | some i => some (i + 1)
      | none => none

/-- `debateTopics[topicIndex].replies.push(newReply)`. -/
def pushReply : List Topic → Nat → Reply → List Topic
  | [], _, _ => []
  | topic :: rest, 0, newReply =>
    { topic with replies := topic.replies ++ [newReply] } :: rest
  | topic :: rest, topicIndex + 1, newReply => topic :: pushReply rest topicIndex newReply

/-- The function `createReply`.  `now` and `iso` as for `createTopic`.  When
no topic has the id the result is `false` and nothing is touched; otherwise
the reply is pushed, then `saveTopics` runs, and a throw there gives
`false`.  The `renderTopics` after the write, in the same `try`, is taken to
complete. -/
def createReply (s : AppState) (topicId : Nat) (replyData : ReplyData) (now : Nat)
    (iso : String) : Bool × AppState :=
  let newReply : Reply :=
    { id := now
      author := replyData.author
      content := replyData.content
      date := iso }
  match findIndex (fun topic => topic.id == topicId) s.debateTopics with
  | some topicIndex =>
    let debateTopics := pushReply s.debateTopics topicIndex newReply
    match saveTopics s.localStorage debateTopics with
    | .ok ls => (true, { s with debateTopics := debateTopics, localStorage := ls })
    | .error _ => (false, { s with debateTopics := debateTopics })
  | none => (false, s)

/-! ## Form handlers -/

/-- White space and line terminators, the characters `String.prototype.trim`
removes. -/
def isWhiteSpace (c : Char) : Bool :=
  let n := c.toNat
  n = 0x09 || n = 0x0a || n = 0x0b || n = 0x0c || n = 0x0d || n = 0x20 || n = 0xa0
    || n = 0x1680 || (0x2000 ≤ n && n ≤ 0x200a) || n = 0x2028 || n = 0x2029
    || n = 0x202f || n = 0x205f || n = 0x3000 || n = 0xfeff

/-- `String.prototype.trim`. -/
def jsTrim (s : String) : String :=
  String.mk ((s.data.dropWhile isWhiteSpace).reverse.dropWhile isWhiteSpace).reverse

/-- What a form handler shows: the validation notice, the success state, or
the failure `alert`. -/
inductive SubmitOutcome where
  | validationNotice
  | success
  | failureAlert
  deriving DecidableEq, Repr

/-- The values `submitNewTopic` reads from the topic form. -/
structure TopicForm where
  username : String
  title : String
  content : String
  category : String
  deriving DecidableEq, Repr

/-- The values `submitReply` reads from a reply form. -/
structure ReplyForm where
  username : String
  content : String
  deriving DecidableEq, Repr

/-- The function `submitNewTopic`: trims the inputs, shows the notice and
returns when title or content is empty, else calls `createTopic`. -/
def submitNewTopic (s : AppState) (form : TopicForm) (now : Nat) (iso : String) :
    SubmitOutcome × AppState :=
  let username := if jsTrim form.username = "" then "Anonymous" else jsTrim form.username
  let title := jsTrim form.title
  let content := jsTrim form.content
  let category := form.category
  if title = "" ∨ content = "" then
    (.validationNotice, s)
  else
    let topicData : TopicData :=
      { title := title, content := content, author := username, category := category }
    match createTopic s topicData now iso with
    | (true, s2) => (.success, s2)
    | (false, s2) => (.failureAlert, s2)

/-- The function `submitReply`: trims the inputs, shows the notice and returns
when the content is empty, else calls `createReply`. -/
def submitReply (s : AppState) (topicId : Nat) (form : ReplyForm) (now : Nat)
    (iso : String) : SubmitOutcome × AppState :=
  let username := if jsTrim form.username = "" then "Anonymous" else jsTrim form.username
  let content := jsTrim form.content
  if content = "" then
    (.validationNotice, s)
  else
    let replyData : ReplyData := { author := username, content := content }
    match createReply s topicId replyData now iso with
    | (true, s2) => (.success, s2)
    | (false, s2) => (.failureAlert, s2)

/-! ## Runs of mutation calls -/

/-- One call of the mutation interface together with its two clock reads. -/
inductive Call where
  | topic (topicData : TopicData) (now : Nat) (iso : String)
  | reply (topicId : Nat) (replyData : ReplyData) (now : Nat) (iso : String)
  deriving DecidableEq, Repr

/-- The `Date.now()` reading of a call. -/
def Call.now : Call → Nat
  | .topic _ now _ => now
  | .reply _ _ now _ => now

/-- The state after one call. -/
def step (s : AppState) : Call → AppState
  | .topic topicData now iso => (createTopic s topicData now iso).2
  | .reply topicId replyData now iso => (createReply s topicId replyData now iso).2

/-- The state after a sequence of calls, each run to completion in turn. -/
def run (s : AppState) : List Call → AppState
  | [] => s
  | c :: cs => run (step s c) cs

def topicIds (topics : List Topic) : List Nat := topics.map (fun t => t.id)

def replyIds : List Topic → List Nat
  | [] => []
  | t :: ts => t.replies.map (fun r => r.id) ++ replyIds ts

/-- The id of the topic a `createTopic` call stored: the `id` field of the
first topic of the collection after the call. -/
def newTopicId (s : AppState) (topicData : TopicData) (now : Nat) (iso : String) :
    Option Nat :=
  match (createTopic s topicData now iso).2.debateTopics with
  | newTopic :: _ => some newTopic.id
  | [] => none

/-- The id of the reply a `createReply` call stored: the `id` field of the
last reply, after the call, of the topic it located; `none` when it located
no topic and so stored no reply. -/
def newReplyId (s : AppState) (topicId : Nat) (replyData : ReplyData) (now : Nat)
    (iso : String) : Option Nat :=
  match findIndex (fun topic => topic.id == topicId) s.debateTopics with
  | some topicIndex =>
    match (createReply s topicId replyData now iso).2.debateTopics[topicIndex]? with
    | some topic =>
      match topic.replies.getLast? with
      | some newReply => some newReply.id
      | none => none
    | none => none
  | none => none

/-- The ids of the replies the calls of a sequence stored, in call order,
started in state `s`. -/
def storedReplyIds (s : AppState) : List Call → List Nat
  | [] => []
  | .topic topicData now iso :: cs =>
    storedReplyIds (step s (.topic topicData now iso)) cs
  | .reply topicId replyData now iso :: cs =>
    match newReplyId s topicId replyData now iso with
    | some id => id :: storedReplyIds (step s (.reply topicId replyData now iso)) cs
    | none => storedReplyIds (step s (.reply topicId replyData now iso)) cs

/-- The id of the record a call stores is new. `s` is the state the sequence
started in and `earlier` the calls before this one. A topic call stores a
topic whose id no topic of the store has. A reply call that locates its topic
stores a reply whose id no reply of the store has and no reply stored by an
earlier call was given. -/
def freshId (s : AppState) (earlier : List Call) : Call → Prop
  | .topic topicData now iso =>
    ∃ id, newTopicId (run s earlier) topicData now iso = some id ∧
      id ∉ topicIds (run s earlier).debateTopics
  | .reply topicId replyData now iso =>
    (∃ i, findIndex (fun topic => topic.id == topicId) (run s earlier).debateTopics
        = some i) →
    ∃ id, newReplyId (run s earlier) topicId replyData now iso = some id ∧
      id ∉ replyIds (run s earlier).debateTopics ∧ id ∉ storedReplyIds s earlier

/-- Every call of the sequence stores a record with a new id. -/
def assignsFreshIds (s : AppState) (calls : List Call) : Prop :=
  ∀ (earlier : List Call) (c : Call) (later : List Call),
    calls = earlier ++ c :: later → freshId s earlier c

/-! ## Categories -/

/-- The enumerated categories (the `enum` of `TopicSchema`). -/
def categories : List String :=
  ["ethics", "politics", "science", "education", "society", "other"]

def validCategories (topics : List Topic) : Prop :=
  ∀ t ∈ topics, t.category ∈ categories

/-! ## Client identity -/

/-- What stops the evaluation of the script: a name that is not bound where
it is used, or a storage write that does not fit. -/
inductive ScriptError where
  | ReferenceError (name : String)
  | QuotaExceededError
  deriving DecidableEq, Repr

/-- The two function scopes of the script: the top level, and the body of
the `DOMContentLoaded` callback. -/
inductive Scope where
  | topLevel
  | domContentLoaded
  deriving DecidableEq, Repr

/-- The function declarations of each scope: the top level has none, all
fifteen stand inside the callback. -/
def declaredFunctions : Scope → List String
  | .topLevel => []
  | .domContentLoaded =>
    ["generateUserId", "formatDate", "capitalizeFirstLetter", "loadTopics", "saveTopics",
     "fetchTopics", "createTopic", "createReply", "updateLoadingState", "showElement",
     "createReplyElement", "submitReply", "renderTopics", "submitNewTopic", "getSampleTopics"]

/-- The functions a scope can name: its own and those of the scopes around
it. -/
def visibleFunctions : Scope → List String
  | .topLevel => declaredFunctions .topLevel
  | .domContentLoaded => declaredFunctions .domContentLoaded ++ declaredFunctions .topLevel

/-- The function `generateUserId`: `newId` is "user_" followed by
`randomDigits`, the value of `Math.random().toString(36).substring(2, 15)`;
it is written under `LOCAL_STORAGE_KEY` and returned. -/
def generateUserId (ls : LocalStorage) (randomDigits : String) :
    Except ScriptError (String × LocalStorage) :=
  let newId := "user_" ++ randomDigits
  match setItem ls LOCAL_STORAGE_KEY newId with
  | .ok ls2 => .ok (newId, ls2)
  | .error _ => .error .QuotaExceededError

/-- The call `generateUserId()` evaluated in `scope`: a `ReferenceError` when
the scope cannot name the function. -/
def callGenerateUserId (scope : Scope) (ls : LocalStorage) (randomDigits : String) :
    Except ScriptError (String × LocalStorage) :=
  if "generateUserId" ∈ visibleFunctions scope then
    generateUserId ls randomDigits
  else
    .error (.ReferenceError "generateUserId")

/-- The initialiser of `userId`, evaluated at the top level of the script:
`localStorage.getItem(LOCAL_STORAGE_KEY) || generateUserId()`.  The stored
value is taken when it is truthy (a non-empty string); the result is the id
and the storage area after the evaluation. -/
def userId (ls : LocalStorage) (randomDigits : String) :
    Except ScriptError (String × LocalStorage) :=
  match getItem ls LOCAL_STORAGE_KEY with
  | some stored =>
    if stored ≠ "" then
      .ok (stored, ls)
    else
      callGenerateUserId .topLevel ls randomDigits
  | none => callGenerateUserId .topLevel ls randomDigits

/-! ## The JSON text round trip -/

theorem hexValue_hexDigit (n : Nat) (h : n < 16) : hexValue (hexDigit n) = some n := by
  interval_cases n <;> decide

theorem hex4_control (n : Nat) (h : n < 32) :
    hex4 '0' '0' (hexDigit (n / 16)) (hexDigit (n % 16)) = some n := by
  interval_cases n <;> decide

theorem parseStringBody_cons (c : Char) (rest : List Char) :
    parseStringBody (c :: rest) =
    if c = '\x22' then some ([], rest)
    else if c = '\x5c' then
      match rest with
      | [] => none
      | e :: rest2 =>
        if e = 'u' then
          match rest2 with
          | a :: b :: c3 :: d :: rest3 =>
            match hex4 a b c3 d with
            | some n => consChar (Char.ofNat n) (parseStringBody rest3)
            | none => none
          | _ => none
        else
          match unescapeChar e with
          | some ch => consChar ch (parseStringBody rest2)
          | none => none
    else if c.toNat < 32 then none
    else consChar c (parseStringBody rest) := by
  rw [parseStringBody.eq_def]

theorem parseStringBody_escapeChar (c : Char) (tail : List Char) :
    parseStringBody (escapeChar c ++ tail) = consChar c (parseStringBody tail) := by
  unfold escapeChar
  split_ifs with h1 h2 h3 h4 h5 h6 h7 h8
  · subst h1; simp [parseStringBody_cons, unescapeChar]
  · subst h2; simp [parseStringBody_cons, unescapeChar]
  · subst h3; simp [parseStringBody_cons, unescapeChar]
  · subst h4; simp [parseStringBody_cons, unescapeChar]
  · subst h5; simp [parseStringBody_cons, unescapeChar]
  · subst h6; simp [parseStringBody_cons, unescapeChar]
  · subst h7; simp [parseStringBody_cons, unescapeChar]
  · have := hex4_control c.toNat h8
    simp [parseStringBody_cons, this, Char.ofNat_toNat]
  · simp [parseStringBody_cons, h1, h2, h8]

theorem parseStringBody_escapeChars (cs rest : List Char) :
    parseStringBody (escapeChars cs ++ '\x22' :: rest) = some (cs, rest) := by
  induction cs with
  | nil => simp [escapeChars, parseStringBody_cons]
  | cons c cs ih =>
    simp [escapeChars, List.append_assoc, parseStringBody_escapeChar, ih, consChar]

theorem parseString_quote (s : String) (rest : List Char) :
    parseString (quoteJSONString s ++ rest) = some (s, rest) := by
  simp [quoteJSONString, parseString, parseStringBody_escapeChars]


theorem isDigit_ofNat (d : Nat) (h : d < 10) : isDigit (Char.ofNat (48 + d)) = true := by
  interval_cases d <;> decide

theorem toNat_ofNat_digit (d : Nat) (h : d < 10) : (Char.ofNat (48 + d)).toNat - 48 = d := by
  interval_cases d <;> decide

/-- The digits `natDigits` puts in front of `acc`: a non-empty run of decimal
digit characters whose value is `n`. -/
theorem natDigits_spec (fuel : Nat) : ∀ (n : Nat) (acc : List Char), n < fuel →
    ∃ ds : List Char, natDigits fuel n acc = ds ++ acc ∧ ds ≠ [] ∧
      (∀ c ∈ ds, isDigit c = true) ∧
      ∀ a : Nat, ds.foldl (fun a c => a * 10 + (c.toNat - 48)) a = a * 10 ^ ds.length + n := by
  induction fuel with
  | zero => intro n acc h; omega
  | succ fuel ih =>
    intro n acc h
    have hmod : n % 10 < 10 := Nat.mod_lt _ (by norm_num)
    by_cases h0 : n / 10 = 0
    · refine ⟨[Char.ofNat (48 + n % 10)], ?_, by simp, ?_, ?_⟩
      · simp [natDigits, h0]
      · intro c hc
        simp only [List.mem_singleton] at hc
        subst hc
        exact isDigit_ofNat _ hmod
      · intro a
        simp only [List.foldl_cons, List.foldl_nil, List.length_singleton, pow_one,
          toNat_ofNat_digit _ hmod]
        omega
    · obtain ⟨ds, hds, _, hdig, hval⟩ :=
        ih (n / 10) (Char.ofNat (48 + n % 10) :: acc) (by omega)
      refine ⟨ds ++ [Char.ofNat (48 + n % 10)], ?_, by simp, ?_, ?_⟩
      · simp [natDigits, h0, hds]
      · intro c hc
        rcases List.mem_append.mp hc with hc | hc
        · exact hdig c hc
        · simp only [List.mem_singleton] at hc
          subst hc
          exact isDigit_ofNat _ hmod
      · intro a
        simp only [List.foldl_append, List.foldl_cons, List.foldl_nil, hval,
          List.length_append, List.length_singleton, toNat_ofNat_digit _ hmod, pow_succ]
        have := Nat.div_add_mod n 10
        nlinarith [this]

theorem takeWhile_digits (ds rest : List Char) (h : ∀ c ∈ ds, isDigit c = true)
    (hrest : ∀ c tl, rest = c :: tl → isDigit c = false) :
    (ds ++ rest).takeWhile isDigit = ds ∧ (ds ++ rest).dropWhile isDigit = rest := by
  induction ds with
  | nil =>
    cases rest with
    | nil => simp
    | cons c tl => simp [List.takeWhile, List.dropWhile, hrest c tl rfl]
  | cons d ds ih =>
    have hd : isDigit d = true := h d (by simp)
    have := ih (fun c hc => h c (by simp [hc]))
    simp [List.takeWhile, List.dropWhile, hd, this]

theorem parseNat_renderNat (n : Nat) (rest : List Char)
    (hrest : ∀ c tl, rest = c :: tl → isDigit c = false) :
    parseNat (renderNat n ++ rest) = some (n, rest) := by
  obtain ⟨ds, hds, hne, hdig, hval⟩ := natDigits_spec (n + 1) n [] (by omega)
  have htd := takeWhile_digits ds rest hdig hrest
  have hv : digitsValue ds = n := by
    have := hval 0
    simpa [digitsValue] using this
  simp only [List.append_nil] at hds
  simp [parseNat, renderNat, hds, htd.1, htd.2, hne, hv]

theorem expect_append (lit rest : List Char) : expect lit (lit ++ rest) = some rest := by
  induction lit with
  | nil => cases rest <;> rfl
  | cons l ls ih => simp [expect, ih]


theorem parseNat_renderNat_key (n : Nat) (key rest : List Char)
    (h : key.head?.map isDigit = some false) :
    parseNat (renderNat n ++ (key ++ rest)) = some (n, key ++ rest) := by
  apply parseNat_renderNat
  intro c tl hc
  cases key with
  | nil => simp at h
  | cons k ks =>
    simp only [List.cons_append, List.cons.injEq] at hc
    simp only [List.head?_cons, Option.map_some', Option.some.injEq] at h
    rw [← hc.1]; exact h

theorem keyed_append {α : Type} (key : List Char) (p : List Char → Option (α × List Char))
    (rest : List Char) : keyed key p (key ++ rest) = p rest := by
  simp [keyed, expect_append]

theorem parseReply_renderReply (r : Reply) (rest : List Char) :
    parseReply (renderReply r ++ rest) = some (r, rest) := by
  simp only [renderReply, parseReply, List.append_assoc, keyed_append]
  rw [parseNat_renderNat_key _ _ _ (by decide)]
  simp only [Option.some_bind, keyed_append, parseString_quote, expect_append]

theorem renderReply_head (r : Reply) : ∃ tl, renderReply r = '\x7b' :: tl := by
  simp [renderReply]

theorem parseTail_renderTail {α : Type} (p : List Char → Option (α × List Char))
    (render : α → List Char) (fuel : Nat) : ∀ (xs : List α) (rest : List Char),
    xs.length < fuel → (∀ x ∈ xs, ∀ tl, p (render x ++ tl) = some (x, tl)) →
    parseTail p fuel (renderTail render xs ++ ']' :: rest) = some (xs, rest) := by
  induction fuel with
  | zero => intro xs rest h; omega
  | succ fuel ih =>
    intro xs rest h hp
    cases xs with
    | nil => simp [renderTail, parseTail]
    | cons x xs =>
      have hx := hp x (by simp)
      have hxs := ih xs rest (by simpa using h) (fun y hy => hp y (by simp [hy]))
      simp [renderTail, parseTail, List.append_assoc, hx, hxs]

theorem parseArray_renderArray {α : Type} (p : List Char → Option (α × List Char))
    (render : α → List Char) (fuel : Nat) (xs : List α) (rest : List Char)
    (hfuel : xs.length ≤ fuel) (hhead : ∀ x ∈ xs, ∃ tl, render x = '\x7b' :: tl)
    (hp : ∀ x ∈ xs, ∀ tl, p (render x ++ tl) = some (x, tl)) :
    parseArray p fuel (renderArray render xs ++ rest) = some (xs, rest) := by
  cases xs with
  | nil => simp [renderArray, parseArray]
  | cons x xs =>
    obtain ⟨tl, htl⟩ := hhead x (by simp)
    have hx := hp x (by simp)
    have hxs := parseTail_renderTail p render fuel xs rest (by simpa using hfuel)
      (fun y hy => hp y (by simp [hy]))
    have h1 : parseArray p fuel ('[' :: (render x ++ (renderTail render xs ++ ']' :: rest)))
        = some (x :: xs, rest) := by
      rw [parseArray.eq_def]
      simp only [if_true]
      rw [htl]
      simp only [List.cons_append]
      rw [if_neg (by decide)]
      rw [← List.cons_append, ← htl, hx]
      simp [hxs]
    simpa [renderArray, List.append_assoc] using h1

theorem parseTopic_renderTopic (fuel : Nat) (t : Topic) (rest : List Char)
    (hfuel : t.replies.length ≤ fuel) :
    parseTopic fuel (renderTopic t ++ rest) = some (t, rest) := by
  simp only [renderTopic, parseTopic, List.append_assoc, keyed_append]
  rw [parseNat_renderNat_key _ _ _ (by decide)]
  simp only [Option.some_bind, keyed_append, parseString_quote, expect_append]
  rw [parseArray_renderArray parseReply renderReply fuel t.replies _ hfuel
    (fun r _ => renderReply_head r) (fun r _ tl => parseReply_renderReply r tl)]
  simp only [Option.some_bind, expect_append]

theorem renderTopic_head (t : Topic) : ∃ tl, renderTopic t = '\x7b' :: tl := by
  simp [renderTopic]


theorem length_le_renderTail {α : Type} (render : α → List Char) (xs : List α) :
    xs.length ≤ (renderTail render xs).length := by
  induction xs with
  | nil => simp [renderTail]
  | cons x xs ih => simp only [renderTail, List.length_cons, List.length_append]; omega

theorem length_le_renderArray {α : Type} (render : α → List Char) (xs : List α) :
    xs.length ≤ (renderArray render xs).length := by
  cases xs with
  | nil => simp [renderArray]
  | cons x xs =>
    have := length_le_renderTail render xs
    simp only [renderArray, List.length_cons, List.length_append, List.length_nil]; omega

theorem length_render_le_renderTail {α : Type} (render : α → List Char) (xs : List α)
    (x : α) (hx : x ∈ xs) : (render x).length ≤ (renderTail render xs).length := by
  induction xs with
  | nil => simp at hx
  | cons y ys ih =>
    simp only [renderTail, List.length_cons, List.length_append]
    rcases List.mem_cons.mp hx with h | h
    · subst h; omega
    · have := ih h; omega

theorem length_render_le_renderArray {α : Type} (render : α → List Char) (xs : List α)
    (x : α) (hx : x ∈ xs) : (render x).length ≤ (renderArray render xs).length := by
  cases xs with
  | nil => simp at hx
  | cons y ys =>
    simp only [renderArray, List.length_cons, List.length_append, List.length_nil]
    rcases List.mem_cons.mp hx with h | h
    · subst h; omega
    · have := length_render_le_renderTail render ys x h; omega

theorem replies_length_le_renderTopic (t : Topic) :
    t.replies.length ≤ (renderTopic t).length := by
  have := length_le_renderArray renderReply t.replies
  simp only [renderTopic, List.length_append]
  omega

/-- `JSON.parse(JSON.stringify(topics))` is `topics`. -/
theorem parse_stringify (topics : List Topic) : parse (stringify topics) = some topics := by
  have hfuel : ∀ t ∈ topics, t.replies.length ≤ (renderArray renderTopic topics).length :=
    fun t ht => le_trans (replies_length_le_renderTopic t)
      (length_render_le_renderArray renderTopic topics t ht)
  have h := parseArray_renderArray (parseTopic (renderArray renderTopic topics).length)
    renderTopic (renderArray renderTopic topics).length topics []
    (length_le_renderArray renderTopic topics)
    (fun t _ => renderTopic_head t)
    (fun t ht tl => parseTopic_renderTopic _ t tl (hfuel t ht))
  simp only [List.append_nil] at h
  simp [parse, stringify, String.length, h]

theorem stringify_ne_empty (topics : List Topic) : stringify topics ≠ "" := by
  intro h
  have : (stringify topics).data = [] := by rw [h]
  cases topics <;> simp [stringify, renderArray] at this



/-! ## Filter -/

/-- C1. The projection of `renderTopics`: with filter "all" it is the
collection itself; with any other filter it is the collection filtered on
`category = f`, so a sublist of the collection (relative order kept) holding
exactly the topics of that category, each as often as the collection does;
it is empty when there is none, and the placeholder is shown. -/
theorem filteredTopics_spec (T : List Topic) (f : String) :
    (f = "all" → filteredTopics T f = T) ∧
    (f ≠ "all" →
      filteredTopics T f = T.filter (fun t => t.category == f) ∧
      List.Sublist (filteredTopics T f) T ∧
      (∀ t, t ∈ filteredTopics T f ↔ t ∈ T ∧ t.category = f) ∧
      (∀ t, (filteredTopics T f).count t = if t.category = f then T.count t else 0) ∧
      ((∀ t ∈ T, t.category ≠ f) →
        filteredTopics T f = [] ∧ renderTopics T f = .noTopicsPlaceholder)) := by
  refine ⟨fun h => by simp [filteredTopics, h], fun h => ?_⟩
  have hp : filteredTopics T f = T.filter (fun t => t.category == f) := by
    simp [filteredTopics, h]
  refine ⟨hp, ?_, ?_, ?_, ?_⟩
  · rw [hp]; exact List.filter_sublist T
  · intro t; rw [hp]; simp [List.mem_filter]
  · intro t
    rw [hp]
    split_ifs with hc
    · exact List.count_filter (by simpa using hc)
    · apply List.count_eq_zero.mpr
      simp [List.mem_filter, hc]
  · intro hnone
    have hnil : filteredTopics T f = [] := by
      rw [hp, List.filter_eq_nil_iff]
      intro t ht
      simpa using hnone t ht
    exact ⟨hnil, by simp [renderTopics, hnil]⟩


theorem filteredTopics_spec_witness :
    filteredTopics getSampleTopics "all" = getSampleTopics ∧
    filteredTopics getSampleTopics "politics" = getSampleTopics.take 1 ∧
    filteredTopics getSampleTopics "science" = [] :=
  ⟨(filteredTopics_spec getSampleTopics "all").1 rfl,
   ((filteredTopics_spec getSampleTopics "politics").2 (by decide)).1.trans (by decide!),
   (((filteredTopics_spec getSampleTopics "science").2 (by decide)).2.2.2.2 (by decide!)).1⟩

/-! ## Persistence -/

theorem getItem_setItem (ls ls2 : LocalStorage) (key value : String)
    (h : setItem ls key value = .ok ls2) : getItem ls2 key = some value := by
  unfold setItem at h
  simp only at h
  split_ifs at h
  simp only [Except.ok.injEq] at h
  subst h
  simp [getItem]

theorem setItem_ok_iff (ls : LocalStorage) (key value : String) :
    (∃ ls2, setItem ls key value = .ok ls2) ↔
      usage ((key, value) :: ls.items.filter (fun kv => !(kv.1 == key))) ≤ ls.quota := by
  unfold setItem
  simp only
  split_ifs with h <;> simp [h]

theorem loadTopics_of_saveTopics (ls ls2 : LocalStorage) (T : List Topic)
    (h : saveTopics ls T = .ok ls2) : loadTopics ls2 = .ok T := by
  have hget := getItem_setItem ls ls2 TOPICS_STORAGE_KEY (stringify T) h
  simp [loadTopics, hget, stringify_ne_empty, parse_stringify]

/-- C4. Persistence round trip: after a `saveTopics(T)` that returns, the
topics entry of storage is the JSON text of `T` and `loadTopics()` returns
`T` itself, the empty collection included. -/
theorem load_after_save (ls ls2 : LocalStorage) (T : List Topic)
    (h : saveTopics ls T = .ok ls2) :
    getItem ls2 TOPICS_STORAGE_KEY = some (stringify T) ∧ loadTopics ls2 = .ok T :=
  ⟨getItem_setItem ls ls2 TOPICS_STORAGE_KEY (stringify T) h,
   loadTopics_of_saveTopics ls ls2 T h⟩

theorem load_after_save_witness :
    saveTopics ⟨[], 100000⟩ [] = .ok ⟨[(TOPICS_STORAGE_KEY, stringify [])], 100000⟩ ∧
    loadTopics ⟨[(TOPICS_STORAGE_KEY, stringify [])], 100000⟩ = .ok [] ∧
    loadTopics ⟨[(TOPICS_STORAGE_KEY, stringify getSampleTopics)], 100000⟩
      = .ok getSampleTopics :=
  ⟨by decide!,
   (load_after_save ⟨[], 100000⟩ _ [] (by decide!)).2,
   (load_after_save ⟨[], 100000⟩ _ getSampleTopics (by decide!)).2⟩

/-- C9. With no topics entry in storage `loadTopics` returns the sample
data: three topics with ids 1, 2, 3 carrying 2, 1 and 0 replies, and the
filter "all" shows all three in that order. -/
theorem load_empty_storage (ls : LocalStorage)
    (h : getItem ls TOPICS_STORAGE_KEY = none) :
    loadTopics ls = .ok getSampleTopics ∧
    getSampleTopics.length = 3 ∧
    getSampleTopics.map (fun t => t.id) = [1, 2, 3] ∧
    getSampleTopics.map (fun t => t.replies.length) = [2, 1, 0] ∧
    filteredTopics getSampleTopics "all" = getSampleTopics := by
  refine ⟨by simp [loadTopics, h], by decide!, by decide!, by decide!, ?_⟩
  simp [filteredTopics]

theorem load_empty_storage_witness :
    loadTopics ⟨[], 0⟩ = .ok getSampleTopics ∧
    loadTopics ⟨[(LOCAL_STORAGE_KEY, "user_k3j2h1")], 5000000⟩ = .ok getSampleTopics :=
  ⟨(load_empty_storage ⟨[], 0⟩ (by decide!)).1,
   (load_empty_storage ⟨[(LOCAL_STORAGE_KEY, "user_k3j2h1")], 5000000⟩ (by decide!)).1⟩

/-! ## `createTopic` -/

theorem createTopic_debateTopics (s : AppState) (topicData : TopicData) (now : Nat)
    (iso : String) :
    (createTopic s topicData now iso).2.debateTopics =
      { id := now, title := topicData.title, content := topicData.content,
        author := topicData.author, category := topicData.category, date := iso,
        replies := [] } :: s.debateTopics := by
  unfold createTopic
  simp only
  split <;> rfl

theorem createTopic_false (s : AppState) (topicData : TopicData) (now : Nat) (iso : String)
    (h : (createTopic s topicData now iso).1 = false) :
    (createTopic s topicData now iso).2.localStorage = s.localStorage := by
  unfold createTopic at h ⊢
  simp only at h ⊢
  split at h
  · simp at h
  · rename_i heq; simp [heq]

theorem createTopic_true (s : AppState) (topicData : TopicData) (now : Nat) (iso : String)
    (h : (createTopic s topicData now iso).1 = true) :
    saveTopics s.localStorage (createTopic s topicData now iso).2.debateTopics
      = .ok (createTopic s topicData now iso).2.localStorage := by
  unfold createTopic at h ⊢
  simp only at h ⊢
  split at h
  · rename_i heq; simp [heq]
  · simp at h

/-- C5. A successful `createTopic` puts the new topic in front of the
collection and leaves the rest as it was, and that collection is what storage
then holds; the new topic has no replies, the fields of the input, and an id
above the clock at the start of the call. On the three sample topics the
result has four entries. -/
theorem createTopic_success (s : AppState) (topicData : TopicData) (start lateness : Nat)
    (iso : String)
    (h : (createTopic s topicData (afterTimeout start 500 lateness) iso).1 = true) :
    ∃ newTopic : Topic,
      (createTopic s topicData (afterTimeout start 500 lateness) iso).2.debateTopics
        = newTopic :: s.debateTopics ∧
      (createTopic s topicData (afterTimeout start 500 lateness) iso).2.debateTopics.length
        = s.debateTopics.length + 1 ∧
      loadTopics (createTopic s topicData (afterTimeout start 500 lateness) iso).2.localStorage
        = .ok (newTopic :: s.debateTopics) ∧
      newTopic.replies = [] ∧
      start < newTopic.id ∧
      newTopic.title = topicData.title ∧ newTopic.content = topicData.content ∧
      newTopic.author = topicData.author ∧ newTopic.category = topicData.category ∧
      (s.debateTopics = getSampleTopics →
        (createTopic s topicData (afterTimeout start 500 lateness) iso).2.debateTopics.length
          = 4) := by
  have hsave := loadTopics_of_saveTopics _ _ _ (createTopic_true s topicData _ iso h)
  rw [createTopic_debateTopics] at hsave
  refine ⟨_, createTopic_debateTopics s topicData _ iso, ?_, hsave, rfl, ?_, rfl, rfl, rfl,
    rfl, ?_⟩
  · simp [createTopic_debateTopics]
  · simp only [afterTimeout]; omega
  · intro hs
    simp [createTopic_debateTopics, hs, getSampleTopics]

theorem createTopic_success_witness :
    ∃ newTopic : Topic,
      (createTopic ⟨getSampleTopics, "all", ⟨[], 5000000⟩⟩ ⟨"X", "Y", "Anonymous", "science"⟩
        (afterTimeout 1746200000000 500 3) "2025-05-02T15:33:20.503Z").2.debateTopics
        = newTopic :: getSampleTopics ∧
      newTopic.replies = [] ∧ 1746200000000 < newTopic.id := by
  obtain ⟨newTopic, h1, _, _, h3, h4, _⟩ :=
    createTopic_success ⟨getSampleTopics, "all", ⟨[], 5000000⟩⟩
      ⟨"X", "Y", "Anonymous", "science"⟩ 1746200000000 3 "2025-05-02T15:33:20.503Z"
      (by decide!)
  exact ⟨newTopic, h1, h3, h4⟩

/-- C2 (as stated, refuted). With a storage area that accepts no write,
`createTopic` returns `false` and `debateTopics` has gained the topic;
`createReply` on an existing topic returns `false` and the topic has gained
the reply. -/
theorem failure_keeps_mutation :
    (createTopic ⟨[], "all", ⟨[], 0⟩⟩ ⟨"X", "Y", "Anonymous", "science"⟩ 1746200000503
        "2025-05-02T15:33:20.503Z").1 = false ∧
    (createTopic ⟨[], "all", ⟨[], 0⟩⟩ ⟨"X", "Y", "Anonymous", "science"⟩ 1746200000503
        "2025-05-02T15:33:20.503Z").2.debateTopics ≠ [] ∧
    (createReply ⟨[⟨7, "T", "C", "A", "other", "D", []⟩], "all", ⟨[], 0⟩⟩ 7 ⟨"Anonymous", "hi"⟩
        1746200000503 "2025-05-02T15:33:20.503Z").1 = false ∧
    (createReply ⟨[⟨7, "T", "C", "A", "other", "D", []⟩], "all", ⟨[], 0⟩⟩ 7 ⟨"Anonymous", "hi"⟩
        1746200000503 "2025-05-02T15:33:20.503Z").2.debateTopics
      ≠ [⟨7, "T", "C", "A", "other", "D", []⟩] := by
  decide!

theorem findIndex_eq_none {α : Type} (p : α → Bool) (xs : List α) :
    findIndex p xs = none ↔ ∀ x ∈ xs, p x = false := by
  induction xs with
  | nil => simp [findIndex]
  | cons x xs ih =>
    unfold findIndex
    by_cases hx : p x = true
    · simp [hx]
    · simp only [hx, if_false, List.mem_cons, forall_eq_or_imp]
      cases hf : findIndex p xs with
      | none => simpa [hx] using ih.mp hf
      | some i =>
        simp only [if_false, reduceCtorEq, true_and, false_iff]
        intro hall
        rw [ih.mpr hall] at hf
        cases hf

theorem createReply_false (s : AppState) (topicId : Nat) (replyData : ReplyData) (now : Nat)
    (iso : String) (h : (createReply s topicId replyData now iso).1 = false) :
    (createReply s topicId replyData now iso).2.localStorage = s.localStorage := by
  unfold createReply at h ⊢
  cases hf : findIndex (fun topic => topic.id == topicId) s.debateTopics with
  | none => simp [hf]
  | some i =>
    simp only [hf] at h ⊢
    cases hs : saveTopics s.localStorage (pushReply s.debateTopics i
        { id := now, author := replyData.author, content := replyData.content,
          date := iso }) with
    | ok ls => simp [hs] at h
    | error e => simp [hs]

theorem createReply_debateTopics (s : AppState) (topicId : Nat) (replyData : ReplyData)
    (now : Nat) (iso : String) :
    (createReply s topicId replyData now iso).2.debateTopics =
      match findIndex (fun topic => topic.id == topicId) s.debateTopics with
      | some topicIndex => pushReply s.debateTopics topicIndex
          { id := now, author := replyData.author, content := replyData.content, date := iso }
      | none => s.debateTopics := by
  unfold createReply
  simp only
  split
  · split <;> rfl
  · rfl

/-- C2 (amended). A failure caused by the storage write leaves storage as
it was: when `saveTopics` throws on the collection the operation built,
`createTopic`, and likewise `createReply`, returns `false` and storage is as
before the call. A failure caused by an unknown id leaves everything as it
was: when no topic has the id, `createReply` returns `false` and the state,
collection and storage, is the state before the call. -/
theorem failure_keeps_storage (s : AppState) (now : Nat) (iso : String) :
    (∀ (topicData : TopicData) (e : DOMException),
      saveTopics s.localStorage
        ({ id := now, title := topicData.title, content := topicData.content,
           author := topicData.author, category := topicData.category, date := iso,
           replies := [] } :: s.debateTopics) = .error e →
      (createTopic s topicData now iso).1 = false ∧
      (createTopic s topicData now iso).2.localStorage = s.localStorage) ∧
    (∀ (topicId : Nat) (replyData : ReplyData) (i : Nat) (e : DOMException),
      findIndex (fun topic => topic.id == topicId) s.debateTopics = some i →
      saveTopics s.localStorage
        (pushReply s.debateTopics i
          { id := now, author := replyData.author, content := replyData.content,
            date := iso }) = .error e →
      (createReply s topicId replyData now iso).1 = false ∧
      (createReply s topicId replyData now iso).2.localStorage = s.localStorage) ∧
    (∀ (topicId : Nat) (replyData : ReplyData),
      (∀ t ∈ s.debateTopics, t.id ≠ topicId) →
      createReply s topicId replyData now iso = (false, s)) := by
  refine ⟨fun topicData e h => ?_, fun topicId replyData i e hfind h => ?_,
    fun topicId replyData hnone => ?_⟩
  · have hf : (createTopic s topicData now iso).1 = false := by
      simp [createTopic, h]
    exact ⟨hf, createTopic_false s topicData now iso hf⟩
  · have hf : (createReply s topicId replyData now iso).1 = false := by
      simp [createReply, hfind, h]
    exact ⟨hf, createReply_false s topicId replyData now iso hf⟩
  · have hf : findIndex (fun topic => topic.id == topicId) s.debateTopics = none := by
      rw [findIndex_eq_none]
      intro t ht
      simpa using hnone t ht
    simp [createReply, hf]

theorem failure_keeps_storage_witness :
    ((createTopic ⟨getSampleTopics, "all", ⟨[(LOCAL_STORAGE_KEY, "user_k3j2h1")], 100⟩⟩
        ⟨"X", "Y", "Anonymous", "science"⟩ 1746200000503 "2025-05-02T15:33:20.503Z").1 = false ∧
     (createTopic ⟨getSampleTopics, "all", ⟨[(LOCAL_STORAGE_KEY, "user_k3j2h1")], 100⟩⟩
        ⟨"X", "Y", "Anonymous", "science"⟩ 1746200000503
        "2025-05-02T15:33:20.503Z").2.localStorage
       = ⟨[(LOCAL_STORAGE_KEY, "user_k3j2h1")], 100⟩) ∧
    ((createReply ⟨getSampleTopics, "all", ⟨[(LOCAL_STORAGE_KEY, "user_k3j2h1")], 100⟩⟩ 2
        ⟨"Anonymous", "hi"⟩ 1746200000503 "2025-05-02T15:33:20.503Z").1 = false ∧
     (createReply ⟨getSampleTopics, "all", ⟨[(LOCAL_STORAGE_KEY, "user_k3j2h1")], 100⟩⟩ 2
        ⟨"Anonymous", "hi"⟩ 1746200000503 "2025-05-02T15:33:20.503Z").2.localStorage
       = ⟨[(LOCAL_STORAGE_KEY, "user_k3j2h1")], 100⟩) ∧
    createReply ⟨getSampleTopics, "all", ⟨[], 5000000⟩⟩ 999999 ⟨"Anonymous", "hi"⟩
        1746200000503 "2025-05-02T15:33:20.503Z"
      = (false, ⟨getSampleTopics, "all", ⟨[], 5000000⟩⟩) :=
  ⟨(failure_keeps_storage ⟨getSampleTopics, "all", ⟨[(LOCAL_STORAGE_KEY, "user_k3j2h1")], 100⟩⟩
      1746200000503 "2025-05-02T15:33:20.503Z").1 ⟨"X", "Y", "Anonymous", "science"⟩
      .QuotaExceededError (by decide!),
   (failure_keeps_storage ⟨getSampleTopics, "all", ⟨[(LOCAL_STORAGE_KEY, "user_k3j2h1")], 100⟩⟩
      1746200000503 "2025-05-02T15:33:20.503Z").2.1 2 ⟨"Anonymous", "hi"⟩ 1
      .QuotaExceededError (by decide!) (by decide!),
   (failure_keeps_storage ⟨getSampleTopics, "all", ⟨[], 5000000⟩⟩ 1746200000503
      "2025-05-02T15:33:20.503Z").2.2 999999 ⟨"Anonymous", "hi"⟩ (by decide!)⟩

/-! ## Validation -/

/-- C6 (as stated, refuted). `createTopic` itself checks nothing: called on
the sample topics with an empty title it returns `true` and the collection
has four entries, the first with the empty title. -/
theorem createTopic_accepts_empty_title :
    (createTopic ⟨getSampleTopics, "all", ⟨[], 5000000⟩⟩ ⟨"", "Y", "Anonymous", "science"⟩
        1746200000503 "2025-05-02T15:33:20.503Z").1 = true ∧
    (createTopic ⟨getSampleTopics, "all", ⟨[], 5000000⟩⟩ ⟨"", "Y", "Anonymous", "science"⟩
        1746200000503 "2025-05-02T15:33:20.503Z").2.debateTopics.length = 4 ∧
    (createTopic ⟨getSampleTopics, "all", ⟨[], 5000000⟩⟩ ⟨"", "Y", "Anonymous", "science"⟩
        1746200000503 "2025-05-02T15:33:20.503Z").2.debateTopics.map (fun t => t.title)
      = "" :: getSampleTopics.map (fun t => t.title) := by
  decide!

/-- C6 (amended). The check is in `submitNewTopic`: when the title or the
content of the form is empty after trimming, it shows the validation notice,
which is not the failure alert, does not call `createTopic`, and leaves the
state (collection and storage) as it was. -/
theorem submitNewTopic_blank (s : AppState) (form : TopicForm) (now : Nat) (iso : String)
    (h : jsTrim form.title = "" ∨ jsTrim form.content = "") :
    submitNewTopic s form now iso = (.validationNotice, s) ∧
    (submitNewTopic s form now iso).1 ≠ .failureAlert ∧
    (submitNewTopic s form now iso).2.debateTopics = s.debateTopics ∧
    (submitNewTopic s form now iso).2.localStorage = s.localStorage := by
  have h1 : submitNewTopic s form now iso = (.validationNotice, s) := by
    unfold submitNewTopic
    simp only [h, if_true]
  simp [h1]

theorem submitNewTopic_blank_witness :
    submitNewTopic ⟨getSampleTopics, "all", ⟨[], 5000000⟩⟩ ⟨"", "", "Y", "science"⟩
        1746200000503 "2025-05-02T15:33:20.503Z"
      = (.validationNotice, ⟨getSampleTopics, "all", ⟨[], 5000000⟩⟩) ∧
    submitNewTopic ⟨getSampleTopics, "all", ⟨[], 5000000⟩⟩ ⟨"Ann", "X", " \t\n", "science"⟩
        1746200000503 "2025-05-02T15:33:20.503Z"
      = (.validationNotice, ⟨getSampleTopics, "all", ⟨[], 5000000⟩⟩) :=
  ⟨(submitNewTopic_blank _ ⟨"", "", "Y", "science"⟩ _ _ (Or.inl (by decide!))).1,
   (submitNewTopic_blank _ ⟨"Ann", "X", " \t\n", "science"⟩ _ _ (Or.inr (by decide!))).1⟩

/-! ## `createReply` -/

/-- C7. `createReply` with an id no topic of the collection has returns
`false` and leaves the whole state as it was: the collection, hence every
`replies` sequence, and storage. -/
theorem createReply_not_found (s : AppState) (topicId : Nat) (replyData : ReplyData)
    (now : Nat) (iso : String) (h : ∀ t ∈ s.debateTopics, t.id ≠ topicId) :
    createReply s topicId replyData now iso = (false, s) ∧
    (createReply s topicId replyData now iso).2.debateTopics.map (fun t => t.replies.length)
      = s.debateTopics.map (fun t => t.replies.length) ∧
    (createReply s topicId replyData now iso).2.localStorage = s.localStorage := by
  have hnone : findIndex (fun topic => topic.id == topicId) s.debateTopics = none := by
    rw [findIndex_eq_none]
    intro t ht
    simpa using h t ht
  have h1 : createReply s topicId replyData now iso = (false, s) := by
    simp [createReply, hnone]
  simp [h1]

theorem createReply_not_found_witness :
    createReply ⟨getSampleTopics, "all", ⟨[], 5000000⟩⟩ 999999 ⟨"Anonymous", "hi"⟩
        1746200000503 "2025-05-02T15:33:20.503Z"
      = (false, ⟨getSampleTopics, "all", ⟨[], 5000000⟩⟩) :=
  (createReply_not_found _ 999999 ⟨"Anonymous", "hi"⟩ _ _ (by decide!)).1

theorem findIndex_lt {α : Type} (p : α → Bool) : ∀ (xs : List α) (i : Nat),
    findIndex p xs = some i → ∃ x, xs[i]? = some x ∧ p x = true := by
  intro xs
  induction xs with
  | nil => intro i h; simp [findIndex] at h
  | cons x xs ih =>
    intro i h
    unfold findIndex at h
    by_cases hx : p x = true
    · simp only [hx, if_true, Option.some.injEq] at h
      subst h
      exact ⟨x, by simp, hx⟩
    · have hx2 : p x = false := by simpa using hx
      simp only [hx2, Bool.false_eq_true, if_false] at h
      cases hf : findIndex p xs with
      | none => simp [hf] at h
      | some j =>
        simp only [hf, Option.some.injEq] at h
        subst h
        obtain ⟨y, hy, hpy⟩ := ih j hf
        exact ⟨y, by simpa using hy, hpy⟩

theorem topicIds_pushReply : ∀ (topics : List Topic) (i : Nat) (r : Reply),
    (pushReply topics i r).map (fun t => t.id) = topics.map (fun t => t.id) := by
  intro topics
  induction topics with
  | nil => intro i r; rfl
  | cons t ts ih =>
    intro i r
    cases i with
    | zero => simp [pushReply]
    | succ i => simp [pushReply, ih]

theorem findIndex_pushReply (k : Nat) : ∀ (topics : List Topic) (i : Nat) (r : Reply),
    findIndex (fun topic => topic.id == k) (pushReply topics i r)
      = findIndex (fun topic => topic.id == k) topics := by
  intro topics
  induction topics with
  | nil => intro i r; rfl
  | cons t ts ih =>
    intro i r
    cases i with
    | zero => simp [pushReply, findIndex]
    | succ i => simp [pushReply, findIndex, ih]

theorem getElem?_pushReply_self : ∀ (topics : List Topic) (i : Nat) (r : Reply) (t : Topic),
    topics[i]? = some t →
    (pushReply topics i r)[i]? = some { t with replies := t.replies ++ [r] } := by
  intro topics
  induction topics with
  | nil => intro i r t h; simp at h
  | cons x xs ih =>
    intro i r t h
    cases i with
    | zero =>
      simp only [List.getElem?_cons_zero, Option.some.injEq] at h
      subst h
      simp [pushReply]
    | succ i =>
      simp only [List.getElem?_cons_succ] at h
      simpa [pushReply] using ih i r t h

theorem getElem?_pushReply_other : ∀ (topics : List Topic) (i j : Nat) (r : Reply),
    j ≠ i → (pushReply topics i r)[j]? = topics[j]? := by
  intro topics
  induction topics with
  | nil => intro i j r _; rfl
  | cons x xs ih =>
    intro i j r hne
    cases i with
    | zero =>
      cases j with
      | zero => exact absurd rfl hne
      | succ j => simp [pushReply]
    | succ i =>
      cases j with
      | zero => simp [pushReply]
      | succ j =>
        simp only [pushReply, List.getElem?_cons_succ]
        exact ih i j r (by omega)

theorem length_pushReply : ∀ (topics : List Topic) (i : Nat) (r : Reply),
    (pushReply topics i r).length = topics.length := by
  intro topics i r
  have := congrArg List.length (topicIds_pushReply topics i r)
  simpa using this

theorem createReply_true (s : AppState) (topicId : Nat) (replyData : ReplyData) (now : Nat)
    (iso : String) (h : (createReply s topicId replyData now iso).1 = true) :
    (∃ i, findIndex (fun topic => topic.id == topicId) s.debateTopics = some i) ∧
    saveTopics s.localStorage (createReply s topicId replyData now iso).2.debateTopics
      = .ok (createReply s topicId replyData now iso).2.localStorage := by
  unfold createReply at h ⊢
  cases hf : findIndex (fun topic => topic.id == topicId) s.debateTopics with
  | none => simp [hf] at h
  | some i =>
    simp only [hf] at h ⊢
    cases hs : saveTopics s.localStorage (pushReply s.debateTopics i
        { id := now, author := replyData.author, content := replyData.content,
          date := iso }) with
    | ok ls => simp [hs]
    | error e => simp [hs] at h

/-- C8. Two successful `createReply` calls on id `k`, with inputs `a` then
`b`: the topic `findIndex` locates (index `i`, id `k`, prior replies
`t.replies`) ends with its prior replies followed by the reply made from `a`
and then the reply made from `b`; the topic is otherwise as it was, as is
every other topic and the length of the collection, and storage holds the
resulting collection. -/
theorem createReply_twice (s : AppState) (k : Nat) (a b : ReplyData) (now1 now2 : Nat)
    (iso1 iso2 : String)
    (h1 : (createReply s k a now1 iso1).1 = true)
    (h2 : (createReply (createReply s k a now1 iso1).2 k b now2 iso2).1 = true) :
    ∃ (i : Nat) (t : Topic),
      findIndex (fun topic => topic.id == k) s.debateTopics = some i ∧
      s.debateTopics[i]? = some t ∧
      t.id = k ∧
      (createReply (createReply s k a now1 iso1).2 k b now2 iso2).2.debateTopics[i]?
        = some { t with replies := t.replies ++
            [{ id := now1, author := a.author, content := a.content, date := iso1 },
             { id := now2, author := b.author, content := b.content, date := iso2 }] } ∧
      (∀ j, j ≠ i →
        (createReply (createReply s k a now1 iso1).2 k b now2 iso2).2.debateTopics[j]?
          = s.debateTopics[j]?) ∧
      (createReply (createReply s k a now1 iso1).2 k b now2 iso2).2.debateTopics.length
        = s.debateTopics.length ∧
      loadTopics (createReply (createReply s k a now1 iso1).2 k b now2 iso2).2.localStorage
        = .ok (createReply (createReply s k a now1 iso1).2 k b now2 iso2).2.debateTopics := by
  obtain ⟨⟨i, hfind⟩, _⟩ := createReply_true s k a now1 iso1 h1
  obtain ⟨t, ht, hpt⟩ := findIndex_lt _ _ _ hfind
  have hload := loadTopics_of_saveTopics _ _ _ (createReply_true _ k b now2 iso2 h2).2
  have hd1 := createReply_debateTopics s k a now1 iso1
  rw [hfind] at hd1
  simp only at hd1
  have hfind2 : findIndex (fun topic => topic.id == k)
      (createReply s k a now1 iso1).2.debateTopics = some i := by
    rw [hd1, findIndex_pushReply, hfind]
  have hd2 := createReply_debateTopics (createReply s k a now1 iso1).2 k b now2 iso2
  rw [hfind2] at hd2
  simp only at hd2
  refine ⟨i, t, hfind, ht, by simpa using hpt, ?_, ?_, ?_, hload⟩
  · have e1 := getElem?_pushReply_self s.debateTopics i
      { id := now1, author := a.author, content := a.content, date := iso1 } t ht
    have e2 := getElem?_pushReply_self _ i
      { id := now2, author := b.author, content := b.content, date := iso2 } _ e1
    rw [hd2, hd1]
    simpa using e2
  · intro j hj
    rw [hd2, hd1, getElem?_pushReply_other _ _ _ _ hj, getElem?_pushReply_other _ _ _ _ hj]
  · rw [hd2, hd1, length_pushReply, length_pushReply]

theorem createReply_twice_witness :
    ∃ (i : Nat) (t : Topic),
      findIndex (fun topic => topic.id == 2) getSampleTopics = some i ∧
      getSampleTopics[i]? = some t ∧
      t.id = 2 ∧
      (createReply (createReply ⟨getSampleTopics, "all", ⟨[], 5000000⟩⟩ 2 ⟨"Ann", "a"⟩
          1746200000503 "2025-05-02T15:33:20.503Z").2 2 ⟨"Bob", "b"⟩
          1746200009107 "2025-05-02T15:33:29.107Z").2.debateTopics[i]?
        = some { t with replies := t.replies ++
            [{ id := 1746200000503, author := "Ann", content := "a",
               date := "2025-05-02T15:33:20.503Z" },
             { id := 1746200009107, author := "Bob", content := "b",
               date := "2025-05-02T15:33:29.107Z" }] } := by
  obtain ⟨i, t, h1, h2, h3, h4, _⟩ :=
    createReply_twice ⟨getSampleTopics, "all", ⟨[], 5000000⟩⟩ 2 ⟨"Ann", "a"⟩ ⟨"Bob", "b"⟩
      1746200000503 1746200009107 "2025-05-02T15:33:20.503Z" "2025-05-02T15:33:29.107Z"
      (by decide!) (by decide!)
  exact ⟨i, t, h1, h2, h3, h4⟩

/-! ## Categories -/

theorem validCategories_sample : validCategories getSampleTopics := by
  intro t ht
  simp only [getSampleTopics, List.mem_cons, List.mem_singleton, List.not_mem_nil,
    or_false] at ht
  rcases ht with h | h | h <;> subst h <;> decide

/-- C10 (as stated, refuted). The sample topics all have an enumerated
category; after `createTopic` with the category "sports" the collection
holds a topic whose category is not enumerated. -/
theorem createTopic_stores_unknown_category :
    validCategories getSampleTopics ∧
    ¬ validCategories
      (createTopic ⟨getSampleTopics, "all", ⟨[], 5000000⟩⟩ ⟨"X", "Y", "Anonymous", "sports"⟩
        1746200000503 "2025-05-02T15:33:20.503Z").2.debateTopics := by
  refine ⟨validCategories_sample, fun h => ?_⟩
  rw [createTopic_debateTopics] at h
  have := h _ (List.mem_cons_self _ _)
  revert this
  decide

/-- C10 (amended). `createTopic` copies the category of its input: on a
collection whose categories are all enumerated, a call whose input category
is enumerated leaves a collection whose categories are all enumerated. -/
theorem createTopic_validCategories (s : AppState) (topicData : TopicData) (now : Nat)
    (iso : String) (h : validCategories s.debateTopics)
    (hc : topicData.category ∈ categories) :
    validCategories (createTopic s topicData now iso).2.debateTopics := by
  rw [createTopic_debateTopics]
  intro t ht
  rcases List.mem_cons.mp ht with ht | ht
  · subst ht; exact hc
  · exact h t ht

theorem createTopic_validCategories_witness :
    validCategories
      (createTopic ⟨getSampleTopics, "all", ⟨[], 5000000⟩⟩ ⟨"X", "Y", "Anonymous", "science"⟩
        1746200000503 "2025-05-02T15:33:20.503Z").2.debateTopics :=
  createTopic_validCategories ⟨getSampleTopics, "all", ⟨[], 5000000⟩⟩
    ⟨"X", "Y", "Anonymous", "science"⟩ 1746200000503 "2025-05-02T15:33:20.503Z"
    validCategories_sample (by decide)

/-! ## Identity -/

theorem replyIds_pushReply : ∀ (topics : List Topic) (i : Nat) (r : Reply) (x : Nat),
    x ∈ replyIds (pushReply topics i r) → x ∈ replyIds topics ∨ x = r.id := by
  intro topics
  induction topics with
  | nil => intro i r x h; simp [pushReply, replyIds] at h
  | cons t ts ih =>
    intro i r x h
    cases i with
    | zero =>
      simp only [pushReply, replyIds, List.map_append, List.map_cons, List.map_nil,
        List.mem_append, List.mem_singleton] at h ⊢
      tauto
    | succ i =>
      simp only [pushReply, replyIds, List.mem_append] at h ⊢
      rcases h with h | h
      · exact Or.inl (Or.inl h)
      · rcases ih i r x h with h2 | h2
        · exact Or.inl (Or.inr h2)
        · exact Or.inr h2

theorem topicIds_step (s : AppState) (c : Call) (x : Nat)
    (h : x ∈ topicIds (step s c).debateTopics) :
    x ∈ topicIds s.debateTopics ∨ x = c.now := by
  cases c with
  | topic topicData now iso =>
    simp only [step, createTopic_debateTopics, topicIds, List.map_cons, List.mem_cons] at h
    rcases h with h | h
    · exact Or.inr h
    · exact Or.inl h
  | reply topicId replyData now iso =>
    simp only [step, createReply_debateTopics] at h
    cases hf : findIndex (fun topic => topic.id == topicId) s.debateTopics with
    | none => rw [hf] at h; exact Or.inl h
    | some i =>
      rw [hf] at h
      simp only [topicIds, topicIds_pushReply] at h
      exact Or.inl h

theorem replyIds_step (s : AppState) (c : Call) (x : Nat)
    (h : x ∈ replyIds (step s c).debateTopics) :
    x ∈ replyIds s.debateTopics ∨ x = c.now := by
  cases c with
  | topic topicData now iso =>
    simp only [step, createTopic_debateTopics, replyIds, List.map_nil, List.nil_append] at h
    exact Or.inl h
  | reply topicId replyData now iso =>
    simp only [step, createReply_debateTopics] at h
    cases hf : findIndex (fun topic => topic.id == topicId) s.debateTopics with
    | none => rw [hf] at h; exact Or.inl h
    | some i =>
      rw [hf] at h
      exact replyIds_pushReply _ _ _ _ h

theorem topicIds_run : ∀ (calls : List Call) (s : AppState) (x : Nat),
    x ∈ topicIds (run s calls).debateTopics →
    x ∈ topicIds s.debateTopics ∨ ∃ c ∈ calls, x = c.now := by
  intro calls
  induction calls with
  | nil => intro s x h; exact Or.inl h
  | cons c cs ih =>
    intro s x h
    rcases ih (step s c) x h with h2 | ⟨d, hd, hx⟩
    · rcases topicIds_step s c x h2 with h3 | h3
      · exact Or.inl h3
      · exact Or.inr ⟨c, List.mem_cons_self _ _, h3⟩
    · exact Or.inr ⟨d, List.mem_cons_of_mem _ hd, hx⟩

theorem replyIds_run : ∀ (calls : List Call) (s : AppState) (x : Nat),
    x ∈ replyIds (run s calls).debateTopics →
    x ∈ replyIds s.debateTopics ∨ ∃ c ∈ calls, x = c.now := by
  intro calls
  induction calls with
  | nil => intro s x h; exact Or.inl h
  | cons c cs ih =>
    intro s x h
    rcases ih (step s c) x h with h2 | ⟨d, hd, hx⟩
    · rcases replyIds_step s c x h2 with h3 | h3
      · exact Or.inl h3
      · exact Or.inr ⟨c, List.mem_cons_self _ _, h3⟩
    · exact Or.inr ⟨d, List.mem_cons_of_mem _ hd, hx⟩

theorem newTopicId_eq (s : AppState) (topicData : TopicData) (now : Nat) (iso : String) :
    newTopicId s topicData now iso = some now := by
  simp [newTopicId, createTopic_debateTopics]

theorem newReplyId_eq (s : AppState) (topicId : Nat) (replyData : ReplyData) (now : Nat)
    (iso : String) (i : Nat)
    (hfind : findIndex (fun topic => topic.id == topicId) s.debateTopics = some i) :
    newReplyId s topicId replyData now iso = some now := by
  obtain ⟨t, ht, _⟩ := findIndex_lt _ _ _ hfind
  have hd := createReply_debateTopics s topicId replyData now iso
  rw [hfind] at hd
  simp only at hd
  have hget := getElem?_pushReply_self s.debateTopics i
    { id := now, author := replyData.author, content := replyData.content, date := iso } t ht
  simp [newReplyId, hfind, hd, hget]

theorem newReplyId_some (s : AppState) (topicId : Nat) (replyData : ReplyData) (now : Nat)
    (iso : String) (id : Nat) (h : newReplyId s topicId replyData now iso = some id) :
    id = now := by
  cases hf : findIndex (fun topic => topic.id == topicId) s.debateTopics with
  | none => simp [newReplyId, hf] at h
  | some i =>
    rw [newReplyId_eq s topicId replyData now iso i hf] at h
    exact (Option.some.inj h).symm

theorem storedReplyIds_mem : ∀ (calls : List Call) (s : AppState) (x : Nat),
    x ∈ storedReplyIds s calls → ∃ c ∈ calls, x = c.now := by
  intro calls
  induction calls with
  | nil => intro s x h; simp [storedReplyIds] at h
  | cons c cs ih =>
    intro s x h
    cases c with
    | topic topicData now iso =>
      simp only [storedReplyIds] at h
      obtain ⟨d, hd, hx⟩ := ih _ x h
      exact ⟨d, List.mem_cons_of_mem _ hd, hx⟩
    | reply topicId replyData now iso =>
      simp only [storedReplyIds] at h
      cases hn : newReplyId s topicId replyData now iso with
      | none =>
        rw [hn] at h
        obtain ⟨d, hd, hx⟩ := ih _ x h
        exact ⟨d, List.mem_cons_of_mem _ hd, hx⟩
      | some id =>
        rw [hn] at h
        rcases List.mem_cons.mp h with h | h
        · refine ⟨_, List.mem_cons_self _ _, ?_⟩
          rw [h]
          exact newReplyId_some s topicId replyData now iso id hn
        · obtain ⟨d, hd, hx⟩ := ih _ x h
          exact ⟨d, List.mem_cons_of_mem _ hd, hx⟩

theorem nodup_replyIds_pushReply : ∀ (topics : List Topic) (i : Nat) (r : Reply),
    (replyIds topics).Nodup → r.id ∉ replyIds topics →
    (replyIds (pushReply topics i r)).Nodup := by
  intro topics
  induction topics with
  | nil => intro i r h _; simpa [pushReply] using h
  | cons t ts ih =>
    intro i r h hr
    cases i with
    | zero =>
      have hperm : List.Perm (replyIds (pushReply (t :: ts) 0 r)) (r.id :: replyIds (t :: ts)) := by
        simp only [pushReply, replyIds, List.map_append, List.map_cons, List.map_nil,
          List.append_assoc, List.singleton_append]
        exact List.perm_middle
      rw [hperm.nodup_iff, List.nodup_cons]
      exact ⟨hr, h⟩
    | succ i =>
      simp only [replyIds, List.nodup_append, List.mem_append, not_or] at h hr ⊢
      refine ⟨h.1, ih i r h.2.1 hr.2, ?_⟩
      intro x hx1 hx2
      rcases replyIds_pushReply ts i r x hx2 with h3 | h3
      · exact h.2.2 hx1 h3
      · rw [h3] at hx1; exact hr.1 hx1

theorem nodup_step (s : AppState) (c : Call)
    (hc : (∀ x ∈ topicIds s.debateTopics, x < c.now) ∧
      (∀ x ∈ replyIds s.debateTopics, x < c.now)) :
    ((topicIds s.debateTopics).Nodup → (topicIds (step s c).debateTopics).Nodup) ∧
    ((replyIds s.debateTopics).Nodup → (replyIds (step s c).debateTopics).Nodup) := by
  cases c with
  | topic topicData now iso =>
    simp only [step, createTopic_debateTopics, topicIds, replyIds, List.map_cons,
      List.map_nil, List.nil_append, List.nodup_cons]
    refine ⟨fun h => ⟨fun hmem => ?_, h⟩, fun h => h⟩
    exact absurd (hc.1 now hmem) (lt_irrefl _)
  | reply topicId replyData now iso =>
    simp only [step, createReply_debateTopics]
    cases hf : findIndex (fun topic => topic.id == topicId) s.debateTopics with
    | none => exact ⟨fun h => h, fun h => h⟩
    | some i =>
      refine ⟨fun h => ?_, fun h => ?_⟩
      · simpa only [topicIds, topicIds_pushReply] using h
      · apply nodup_replyIds_pushReply _ _ _ h
        intro hmem
        exact absurd (hc.2 now hmem) (lt_irrefl _)

theorem nodup_run : ∀ (calls : List Call) (s : AppState),
    List.Pairwise (· < ·) (calls.map Call.now) →
    (∀ c ∈ calls, (∀ x ∈ topicIds s.debateTopics, x < c.now) ∧
      (∀ x ∈ replyIds s.debateTopics, x < c.now)) →
    ((topicIds s.debateTopics).Nodup → (topicIds (run s calls).debateTopics).Nodup) ∧
    ((replyIds s.debateTopics).Nodup → (replyIds (run s calls).debateTopics).Nodup) := by
  intro calls
  induction calls with
  | nil => intro s _ _; exact ⟨fun h => h, fun h => h⟩
  | cons c cs ih =>
    intro s hinc hstore
    rw [List.map_cons, List.pairwise_cons] at hinc
    have hstep := nodup_step s c (hstore c (List.mem_cons_self _ _))
    have hnext : ∀ d ∈ cs, (∀ x ∈ topicIds (step s c).debateTopics, x < d.now) ∧
        (∀ x ∈ replyIds (step s c).debateTopics, x < d.now) := by
      intro d hd
      have hcd : c.now < d.now := hinc.1 _ (List.mem_map_of_mem _ hd)
      have hsd := hstore d (List.mem_cons_of_mem _ hd)
      refine ⟨fun x hx => ?_, fun x hx => ?_⟩
      · rcases topicIds_step s c x hx with h | h
        · exact hsd.1 x h
        · rw [h]; exact hcd
      · rcases replyIds_step s c x hx with h | h
        · exact hsd.2 x h
        · rw [h]; exact hcd
    have hrest := ih (step s c) hinc.2 hnext
    exact ⟨fun h => hrest.1 (hstep.1 h), fun h => hrest.2 (hstep.2 h)⟩

/-- C3 (as stated, refuted). Non-decreasing clock readings do not make ids
new: two `createTopic` calls that read the same millisecond store two topics
with the same id, two `createReply` calls likewise store two replies with the
same id, and a reading equal to the id of a stored topic stores a second
topic with that id. -/
theorem same_reading_repeats_id :
    List.Pairwise (· ≤ ·) [1746200000503, 1746200000503] ∧
    ¬ assignsFreshIds ⟨[], "all", ⟨[], 5000000⟩⟩
      [.topic ⟨"X", "Y", "Anonymous", "science"⟩ 1746200000503 "2025-05-02T15:33:20.503Z",
       .topic ⟨"Z", "W", "Anonymous", "other"⟩ 1746200000503 "2025-05-02T15:33:20.503Z"] ∧
    ¬ assignsFreshIds ⟨getSampleTopics, "all", ⟨[], 5000000⟩⟩
      [.reply 1 ⟨"Ann", "a"⟩ 1746200000503 "2025-05-02T15:33:20.503Z",
       .reply 1 ⟨"Bob", "b"⟩ 1746200000503 "2025-05-02T15:33:20.503Z"] ∧
    ¬ assignsFreshIds ⟨getSampleTopics, "all", ⟨[], 5000000⟩⟩
      [.topic ⟨"X", "Y", "Anonymous", "science"⟩ 2 "1970-01-01T00:00:00.002Z"] ∧
    topicIds (run ⟨[], "all", ⟨[], 5000000⟩⟩
      [.topic ⟨"X", "Y", "Anonymous", "science"⟩ 1746200000503 "2025-05-02T15:33:20.503Z",
       .topic ⟨"Z", "W", "Anonymous", "other"⟩ 1746200000503
         "2025-05-02T15:33:20.503Z"]).debateTopics
      = [1746200000503, 1746200000503] := by
  refine ⟨by decide, fun h => ?_, fun h => ?_, fun h => ?_, by decide!⟩
  · obtain ⟨id, hid, hfresh⟩ := h [.topic ⟨"X", "Y", "Anonymous", "science"⟩ 1746200000503
      "2025-05-02T15:33:20.503Z"] _ [] rfl
    rw [newTopicId_eq] at hid
    cases hid
    exact hfresh (by decide!)
  · obtain ⟨id, hid, hfresh, _⟩ := h [.reply 1 ⟨"Ann", "a"⟩ 1746200000503
      "2025-05-02T15:33:20.503Z"] _ [] rfl ⟨0, by decide!⟩
    rw [newReplyId_eq _ _ _ _ _ 0 (by decide!)] at hid
    cases hid
    exact hfresh (by decide!)
  · obtain ⟨id, hid, hfresh⟩ := h [] _ [] rfl
    rw [newTopicId_eq] at hid
    cases hid
    exact hfresh (by decide!)

/-- C3 (amended). When the clock readings of the calls are strictly
increasing and each is above every topic id and reply id the store starts
with, every call stores a record with a new id: a topic whose id no topic of
the store has, a reply whose id no reply of the store has and no reply stored
by an earlier call was given. So topic ids that were pairwise distinct at the
start are pairwise distinct at the end, and reply ids likewise. -/
theorem fresh_ids_of_increasing_clock (s : AppState) (calls : List Call)
    (hinc : List.Pairwise (· < ·) (calls.map Call.now))
    (hstore : ∀ c ∈ calls,
      (∀ x ∈ topicIds s.debateTopics, x < c.now) ∧ (∀ x ∈ replyIds s.debateTopics, x < c.now)) :
    assignsFreshIds s calls ∧
    ((topicIds s.debateTopics).Nodup → (topicIds (run s calls).debateTopics).Nodup) ∧
    ((replyIds s.debateTopics).Nodup → (replyIds (run s calls).debateTopics).Nodup) := by
  refine ⟨?_, nodup_run calls s hinc hstore⟩
  intro earlier c later hsplit
  subst hsplit
  have hearlier : ∀ d ∈ earlier, d.now < c.now := by
    intro d hd
    rw [List.map_append, List.pairwise_append] at hinc
    exact hinc.2.2 _ (List.mem_map_of_mem _ hd) _ (by simp)
  have hc := hstore c (by simp)
  cases c with
  | topic topicData now iso =>
    refine ⟨now, newTopicId_eq _ topicData now iso, fun hmem => ?_⟩
    rcases topicIds_run earlier s now hmem with h | ⟨d, hd, hx⟩
    · exact absurd (hc.1 now h) (by simp [Call.now])
    · have := hearlier d hd
      change d.now < now at this
      omega
  | reply topicId replyData now iso =>
    rintro ⟨i, hfind⟩
    refine ⟨now, newReplyId_eq _ topicId replyData now iso i hfind, fun hmem => ?_,
      fun hmem => ?_⟩
    · rcases replyIds_run earlier s now hmem with h | ⟨d, hd, hx⟩
      · exact absurd (hc.2 now h) (by simp [Call.now])
      · have := hearlier d hd
        change d.now < now at this
        omega
    · obtain ⟨d, hd, hx⟩ := storedReplyIds_mem earlier s now hmem
      have := hearlier d hd
      change d.now < now at this
      omega

theorem fresh_ids_of_increasing_clock_witness :
    assignsFreshIds ⟨getSampleTopics, "all", ⟨[], 5000000⟩⟩
      [.topic ⟨"X", "Y", "Anonymous", "science"⟩ 1746200000503 "2025-05-02T15:33:20.503Z",
       .topic ⟨"Z", "W", "Anonymous", "other"⟩ 1746200000504 "2025-05-02T15:33:20.504Z",
       .reply 1 ⟨"Ann", "a"⟩ 1746200000505 "2025-05-02T15:33:20.505Z",
       .reply 1 ⟨"Bob", "b"⟩ 1746200009107 "2025-05-02T15:33:29.107Z"] ∧
    (topicIds (run ⟨getSampleTopics, "all", ⟨[], 5000000⟩⟩
      [.topic ⟨"X", "Y", "Anonymous", "science"⟩ 1746200000503 "2025-05-02T15:33:20.503Z",
       .topic ⟨"Z", "W", "Anonymous", "other"⟩ 1746200000504 "2025-05-02T15:33:20.504Z",
       .reply 1 ⟨"Ann", "a"⟩ 1746200000505 "2025-05-02T15:33:20.505Z",
       .reply 1 ⟨"Bob", "b"⟩ 1746200009107 "2025-05-02T15:33:29.107Z"]).debateTopics).Nodup ∧
    (replyIds (run ⟨getSampleTopics, "all", ⟨[], 5000000⟩⟩
      [.topic ⟨"X", "Y", "Anonymous", "science"⟩ 1746200000503 "2025-05-02T15:33:20.503Z",
       .topic ⟨"Z", "W", "Anonymous", "other"⟩ 1746200000504 "2025-05-02T15:33:20.504Z",
       .reply 1 ⟨"Ann", "a"⟩ 1746200000505 "2025-05-02T15:33:20.505Z",
       .reply 1 ⟨"Bob", "b"⟩ 1746200009107 "2025-05-02T15:33:29.107Z"]).debateTopics).Nodup :=
  have h := fresh_ids_of_increasing_clock ⟨getSampleTopics, "all", ⟨[], 5000000⟩⟩
    [.topic ⟨"X", "Y", "Anonymous", "science"⟩ 1746200000503 "2025-05-02T15:33:20.503Z",
     .topic ⟨"Z", "W", "Anonymous", "other"⟩ 1746200000504 "2025-05-02T15:33:20.504Z",
     .reply 1 ⟨"Ann", "a"⟩ 1746200000505 "2025-05-02T15:33:20.505Z",
     .reply 1 ⟨"Bob", "b"⟩ 1746200009107 "2025-05-02T15:33:29.107Z"] (by decide) (by decide!)
  ⟨h.1, h.2.1 (by decide!), h.2.2 (by decide!)⟩

/-! ## Author default -/

theorem submitNewTopic_debateTopics (s : AppState) (form : TopicForm) (now : Nat)
    (iso : String) (ht : jsTrim form.title ≠ "") (hc : jsTrim form.content ≠ "") :
    (submitNewTopic s form now iso).2.debateTopics =
      { id := now, title := jsTrim form.title, content := jsTrim form.content,
        author := if jsTrim form.username = "" then "Anonymous" else jsTrim form.username,
        category := form.category, date := iso, replies := [] } :: s.debateTopics := by
  have hd := createTopic_debateTopics s
    { title := jsTrim form.title, content := jsTrim form.content,
      author := if jsTrim form.username = "" then "Anonymous" else jsTrim form.username,
      category := form.category } now iso
  unfold submitNewTopic
  simp only [ht, hc, or_self, if_false]
  rw [← hd]
  split <;> rename_i heq <;> simp [heq]

theorem submitReply_debateTopics (s : AppState) (topicId : Nat) (form : ReplyForm) (now : Nat)
    (iso : String) (i : Nat) (hc : jsTrim form.content ≠ "")
    (hfind : findIndex (fun topic => topic.id == topicId) s.debateTopics = some i) :
    (submitReply s topicId form now iso).2.debateTopics =
      pushReply s.debateTopics i
        { id := now,
          author := if jsTrim form.username = "" then "Anonymous" else jsTrim form.username,
          content := jsTrim form.content, date := iso } := by
  have hd := createReply_debateTopics s topicId
    { author := if jsTrim form.username = "" then "Anonymous" else jsTrim form.username,
      content := jsTrim form.content } now iso
  rw [hfind] at hd
  simp only at hd
  unfold submitReply
  simp only [hc, if_false]
  rw [← hd]
  split <;> rename_i heq <;> simp [heq]

/-- C11 (as stated, refuted). `createTopic` and `createReply` copy the author
of their input: with the blank author "" the topic put in front and the reply
pushed have the author "", not "Anonymous". -/
theorem create_keeps_blank_author :
    (createTopic ⟨getSampleTopics, "all", ⟨[], 5000000⟩⟩ ⟨"X", "Y", "", "science"⟩
        1746200000503 "2025-05-02T15:33:20.503Z").2.debateTopics.map (fun t => t.author)
      = "" :: getSampleTopics.map (fun t => t.author) ∧
    (createReply ⟨[⟨7, "T", "C", "A", "other", "D", []⟩], "all", ⟨[], 5000000⟩⟩ 7 ⟨"", "hi"⟩
        1746200000503 "2025-05-02T15:33:20.503Z").2.debateTopics
      = [⟨7, "T", "C", "A", "other", "D",
          [⟨1746200000503, "", "hi", "2025-05-02T15:33:20.503Z"⟩]⟩] := by
  decide!

/-- C11 (amended). The default is applied by the form handlers. In every
state, the empty collection included, a topic form that passes validation
makes `submitNewTopic` put in front of the collection one new topic whose
author is "Anonymous" when the display name is blank after trimming and the
trimmed display name otherwise; a reply form that passes validation, for an
id `findIndex` locates, makes `submitReply` push onto that topic one new
reply whose author is set the same way. -/
theorem submit_author (s : AppState) (now : Nat) (iso : String) :
    (∀ form : TopicForm, jsTrim form.title ≠ "" → jsTrim form.content ≠ "" →
      ∃ newTopic : Topic,
        (submitNewTopic s form now iso).2.debateTopics = newTopic :: s.debateTopics ∧
        newTopic.id = now ∧ newTopic.title = jsTrim form.title ∧
        newTopic.content = jsTrim form.content ∧ newTopic.category = form.category ∧
        newTopic.date = iso ∧ newTopic.replies = [] ∧
        (jsTrim form.username = "" → newTopic.author = "Anonymous") ∧
        (jsTrim form.username ≠ "" → newTopic.author = jsTrim form.username)) ∧
    (∀ (topicId : Nat) (rform : ReplyForm) (i : Nat), jsTrim rform.content ≠ "" →
      findIndex (fun topic => topic.id == topicId) s.debateTopics = some i →
      ∃ newReply : Reply,
        (submitReply s topicId rform now iso).2.debateTopics
          = pushReply s.debateTopics i newReply ∧
        newReply.id = now ∧ newReply.content = jsTrim rform.content ∧
        newReply.date = iso ∧
        (jsTrim rform.username = "" → newReply.author = "Anonymous") ∧
        (jsTrim rform.username ≠ "" → newReply.author = jsTrim rform.username)) := by
  refine ⟨fun form ht hc =>
      ⟨_, submitNewTopic_debateTopics s form now iso ht hc, rfl, rfl, rfl, rfl, rfl, rfl,
        ?_, ?_⟩,
    fun topicId rform i hc hfind =>
      ⟨_, submitReply_debateTopics s topicId rform now iso i hc hfind, rfl, rfl, rfl,
        ?_, ?_⟩⟩
  · intro h; simp [h]
  · intro h; simp [h]
  · intro h; simp [h]
  · intro h; simp [h]

theorem submit_author_witness :
    (submitNewTopic ⟨[], "all", ⟨[], 5000000⟩⟩ ⟨"  ", "X", "Y", "science"⟩
        1746200000503 "2025-05-02T15:33:20.503Z").2.debateTopics.map (fun t => t.author)
      = ["Anonymous"] ∧
    (submitNewTopic ⟨getSampleTopics, "all", ⟨[], 5000000⟩⟩ ⟨" Ann ", "X", "Y", "science"⟩
        1746200000503 "2025-05-02T15:33:20.503Z").2.debateTopics.map (fun t => t.author)
      = "Ann" :: getSampleTopics.map (fun t => t.author) ∧
    (∃ newReply : Reply,
      (submitReply ⟨getSampleTopics, "all", ⟨[], 5000000⟩⟩ 3 ⟨"", "hi"⟩
        1746200000503 "2025-05-02T15:33:20.503Z").2.debateTopics
        = pushReply getSampleTopics 2 newReply ∧
      newReply.author = "Anonymous") ∧
    (∃ newReply : Reply,
      (submitReply ⟨getSampleTopics, "all", ⟨[], 5000000⟩⟩ 2 ⟨" Ann ", "hi"⟩
        1746200000503 "2025-05-02T15:33:20.503Z").2.debateTopics
        = pushReply getSampleTopics 1 newReply ∧
      newReply.author = "Ann") := by
  obtain ⟨t1, h1, _, _, _, _, _, _, h1a, _⟩ :=
    (submit_author ⟨[], "all", ⟨[], 5000000⟩⟩ 1746200000503 "2025-05-02T15:33:20.503Z").1
      ⟨"  ", "X", "Y", "science"⟩ (by decide!) (by decide!)
  obtain ⟨t2, h2, _, _, _, _, _, _, _, h2b⟩ :=
    (submit_author ⟨getSampleTopics, "all", ⟨[], 5000000⟩⟩ 1746200000503
      "2025-05-02T15:33:20.503Z").1 ⟨" Ann ", "X", "Y", "science"⟩ (by decide!) (by decide!)
  obtain ⟨r3, h3, _, _, _, h3a, _⟩ :=
    (submit_author ⟨getSampleTopics, "all", ⟨[], 5000000⟩⟩ 1746200000503
      "2025-05-02T15:33:20.503Z").2 3 ⟨"", "hi"⟩ 2 (by decide!) (by decide!)
  obtain ⟨r4, h4, _, _, _, _, h4b⟩ :=
    (submit_author ⟨getSampleTopics, "all", ⟨[], 5000000⟩⟩ 1746200000503
      "2025-05-02T15:33:20.503Z").2 2 ⟨" Ann ", "hi"⟩ 1 (by decide!) (by decide!)
  refine ⟨?_, ?_, ⟨r3, h3, h3a (by decide!)⟩, ⟨r4, h4, (h4b (by decide!)).trans (by decide!)⟩⟩
  · rw [h1]
    simp [h1a (by decide!)]
  · rw [h2]
    simp only [List.map_cons, h2b (by decide!)]
    congr 1

/-! ## Client identity -/

theorem userId_stored (ls : LocalStorage) (randomDigits stored : String)
    (h : getItem ls LOCAL_STORAGE_KEY = some stored) (hne : stored ≠ "") :
    userId ls randomDigits = .ok (stored, ls) := by
  simp [userId, h, hne]

theorem generateUserId_persists (ls ls2 : LocalStorage) (randomDigits newId : String)
    (h : generateUserId ls randomDigits = .ok (newId, ls2)) :
    newId = "user_" ++ randomDigits ∧ getItem ls2 LOCAL_STORAGE_KEY = some newId ∧
    ∀ again : String, userId ls2 again = .ok (newId, ls2) := by
  unfold generateUserId at h
  simp only at h
  cases hs : setItem ls LOCAL_STORAGE_KEY ("user_" ++ randomDigits) with
  | error e => simp [hs] at h
  | ok ls3 =>
    simp only [hs, Except.ok.injEq, Prod.mk.injEq] at h
    obtain ⟨h1, h2⟩ := h
    subst h1 h2
    have hget := getItem_setItem ls ls3 LOCAL_STORAGE_KEY _ hs
    refine ⟨rfl, hget, fun again => userId_stored ls3 again _ hget ?_⟩
    intro hempty
    have := congrArg String.length hempty
    simp only [String.length_append] at this
    have h5 : "user_".length = 5 := by decide
    have h0 : "".length = 0 := by decide
    omega

/-- C12 (the code on a first visit). With no id stored (no entry, or an empty
one) the initialiser of `userId` calls `generateUserId` at the top level,
where that name is not bound: the evaluation stops with a `ReferenceError`,
whatever the random digits, so no id is returned and storage is not
written. -/
theorem userId_first_visit (ls : LocalStorage) (randomDigits : String)
    (h : getItem ls LOCAL_STORAGE_KEY = none ∨ getItem ls LOCAL_STORAGE_KEY = some "") :
    userId ls randomDigits = .error (.ReferenceError "generateUserId") := by
  have hcall : callGenerateUserId .topLevel ls randomDigits
      = .error (.ReferenceError "generateUserId") := by
    simp [callGenerateUserId, visibleFunctions, declaredFunctions]
  rcases h with h | h <;> simp [userId, h, hcall]

theorem userId_first_visit_witness :
    userId ⟨[], 5000000⟩ "k3j2h1x9q0a" = .error (.ReferenceError "generateUserId") ∧
    userId ⟨[(TOPICS_STORAGE_KEY, stringify [])], 5000000⟩ "k3j2h1x9q0a"
      = .error (.ReferenceError "generateUserId") ∧
    callGenerateUserId .domContentLoaded ⟨[], 5000000⟩ "k3j2h1x9q0a"
      = .ok ("user_k3j2h1x9q0a", ⟨[(LOCAL_STORAGE_KEY, "user_k3j2h1x9q0a")], 5000000⟩) :=
  ⟨userId_first_visit _ _ (Or.inl (by decide!)), userId_first_visit _ _ (Or.inl (by decide!)),
   by decide!⟩

/-! ## Storage and collection in step -/

/-- C13. Whenever `createTopic` or `createReply` returns `true`, the topics
entry of storage is the JSON text of the whole collection as the call left
it, and `loadTopics()` on that storage returns that collection. -/
theorem storage_in_sync (s : AppState) (now : Nat) (iso : String) :
    (∀ topicData : TopicData, (createTopic s topicData now iso).1 = true →
      getItem (createTopic s topicData now iso).2.localStorage TOPICS_STORAGE_KEY
        = some (stringify (createTopic s topicData now iso).2.debateTopics) ∧
      loadTopics (createTopic s topicData now iso).2.localStorage
        = .ok (createTopic s topicData now iso).2.debateTopics) ∧
    (∀ (topicId : Nat) (replyData : ReplyData),
      (createReply s topicId replyData now iso).1 = true →
      getItem (createReply s topicId replyData now iso).2.localStorage TOPICS_STORAGE_KEY
        = some (stringify (createReply s topicId replyData now iso).2.debateTopics) ∧
      loadTopics (createReply s topicId replyData now iso).2.localStorage
        = .ok (createReply s topicId replyData now iso).2.debateTopics) := by
  refine ⟨fun topicData h => ?_, fun topicId replyData h => ?_⟩
  · have hsave := createTopic_true s topicData now iso h
    exact ⟨getItem_setItem _ _ _ _ hsave, loadTopics_of_saveTopics _ _ _ hsave⟩
  · have hsave := (createReply_true s topicId replyData now iso h).2
    exact ⟨getItem_setItem _ _ _ _ hsave, loadTopics_of_saveTopics _ _ _ hsave⟩

theorem storage_in_sync_witness :
    loadTopics (createTopic ⟨getSampleTopics, "all", ⟨[], 5000000⟩⟩
        ⟨"X", "Y", "Anonymous", "science"⟩ 1746200000503
        "2025-05-02T15:33:20.503Z").2.localStorage
      = .ok (createTopic ⟨getSampleTopics, "all", ⟨[], 5000000⟩⟩
        ⟨"X", "Y", "Anonymous", "science"⟩ 1746200000503
        "2025-05-02T15:33:20.503Z").2.debateTopics ∧
    loadTopics (createReply ⟨getSampleTopics, "all", ⟨[], 5000000⟩⟩ 3 ⟨"Ann", "hi"⟩
        1746200000503 "2025-05-02T15:33:20.503Z").2.localStorage
      = .ok (createReply ⟨getSampleTopics, "all", ⟨[], 5000000⟩⟩ 3 ⟨"Ann", "hi"⟩
        1746200000503 "2025-05-02T15:33:20.503Z").2.debateTopics :=
  ⟨((storage_in_sync ⟨getSampleTopics, "all", ⟨[], 5000000⟩⟩ 1746200000503
      "2025-05-02T15:33:20.503Z").1 ⟨"X", "Y", "Anonymous", "science"⟩ (by decide!)).2,
   ((storage_in_sync ⟨getSampleTopics, "all", ⟨[], 5000000⟩⟩ 1746200000503
      "2025-05-02T15:33:20.503Z").2 3 ⟨"Ann", "hi"⟩ (by decide!)).2⟩

end DPDebate
